import Mathlib

/-!
Verification of the Python-wrapper generator (`python_op_gen.cc`).

The generator takes operation schemas (`OpDef`) plus an override layer
(`ApiDef`) and emits, per operation, Python source text for an eager
fast path, an eager fallback path and a deferred graph-construction
path.  The definitions below are a shallow embedding of that generator:
string-building C++ functions become Lean functions on `String`, the
protobuf records become Lean structures, and per-operation mutable
state (`attr_expressions_`, `inferred_attrs_`, `attr_to_args_`,
`param_names_`) becomes explicitly threaded values.
-/

namespace PyOpGen

/-- Embedding of `OpDef::ArgDef`: one input or output argument of an operation.
`type` holds the python-rendered dtype name (see `dataTypeToPython`). -/
structure ArgDef where
  name : String := ""
  type : String := ""
  type_attr : String := ""
  type_list_attr : String := ""
  number_attr : String := ""
  is_ref : Bool := false
deriving DecidableEq

/-- Embedding of `OpDef::AttrDef`: a named, typed attribute of an operation. -/
structure AttrDef where
  name : String := ""
  type : String := ""
  has_default_value : Bool := false
  allowed_types : List String := []
deriving DecidableEq

/-- Embedding of `OpDef`: one operation schema. -/
structure OpDef where
  name : String := ""
  input_arg : List ArgDef := []
  output_arg : List ArgDef := []
  attr : List AttrDef := []
  is_stateful : Bool := false
deriving DecidableEq

/-- Embedding of `ApiDef::Visibility`. -/
inductive Visibility where
  | DEFAULT_VISIBILITY
  | VISIBLE
  | SKIP
  | HIDDEN
deriving DecidableEq

/-- Embedding of `ApiDef::Arg`: override record for one argument. -/
structure ApiDefArg where
  name : String := ""
  rename_to : String := ""
deriving DecidableEq

/-- Embedding of `ApiDef::Attr`: override record for one attribute.  `default_py`
holds the python rendering of the overridden default value
(`AttrValueToPython` lives outside this unit, see `attrValueToPython`),
and `default_tensors` the serialized tensor protos for tensor-kind
defaults. -/
structure ApiDefAttr where
  name : String := ""
  rename_to : String := ""
  has_default_value : Bool := false
  default_py : String := ""
  default_tensors : List String := []
deriving DecidableEq

/-- Embedding of `ApiDef`: the per-operation override layer. -/
structure ApiDef where
  visibility : Visibility := .VISIBLE
  in_arg : List ApiDefArg := []
  out_arg : List ApiDefArg := []
  attr : List ApiDefAttr := []
  arg_order : List String := []
deriving DecidableEq

/-- The constant `kRightMargin` (line 46 of the source). -/
def kRightMargin : Nat := 78

/-- The constant `kEagerFallbackSuffix`. -/
def kEagerFallbackSuffix : String := "_eager_fallback"

/-- List indexing with a default, as the C++ `operator[]` reads used
below (the source always indexes in range). -/
def listGetD {β : Type} : List β → Nat → β → β
  | [], _, d => d
  | x :: _, 0, _ => x
  | _ :: xs, n + 1, d => listGetD xs n d

/-- Character-level prefix test (the `absl::StartsWith` of the
source), kept kernel-computable. -/
def strStartsWith (s pre : String) : Bool := pre.data.isPrefixOf s.data

/-- Character-level drop (the `absl::ConsumePrefix` effect on
`op_name_`), kept kernel-computable. -/
def strDrop (s : String) (n : Nat) : String := ⟨s.data.drop n⟩

/-- Embedding of `AttrVarName`: the generated variable holding an inferred attribute. -/
def attrVarName (attr_name : String) : String := "_attr_" ++ attr_name

/-- Embedding of `AddInferredAttr`: the emitted assignment for an inferred attribute
(the side effect on `attr_expressions_` is threaded separately). -/
def addInferredAttr (indentation attr_name value_expression : String) : String :=
  indentation ++ attrVarName attr_name ++ " = " ++ value_expression ++ "\n"

/-- Embedding of `VectorToTuple`. -/
def vectorToTuple (l : List String) : String :=
  if l.length = 1 then "(" ++ l.headD "" ++ ",)"
  else "(" ++ String.intercalate ", " l ++ ")"

/-- The statement `Unflatten` emits for position `i` (with `endIdx`
total positions and length marker `size`); faithful to lines 105-127. -/
def unflattenStmt (pfx var : String) (i endIdx : Nat) (size : String) : String :=
  pfx ++ var ++ " = " ++
  (if 0 < i then var ++ "[:" ++ toString i ++ "] + " else "") ++
  (if i + 1 < endIdx then
    if i = 0 then
      "[" ++ var ++ "[:" ++ size ++ "]] + " ++ var ++ "[" ++ size ++ ":]"
    else
      "[" ++ var ++ "[" ++ toString i ++ ":" ++ toString i ++ " + " ++ size ++
        "]] + " ++ var ++ "[" ++ toString i ++ " + " ++ size ++ ":]"
  else
    "[" ++ var ++ "[" ++ toString i ++ ":]]") ++ "\n"

/-- The body of the `Unflatten` loop: append the statement for
position `i` when its length marker is non-empty, else leave the
result untouched. -/
def unflattenStep (pfx var : String) (output_sizes : List String)
    (r : String) (i : Nat) : String :=
  let size := listGetD output_sizes i ""
  if size ≠ "" then r ++ unflattenStmt pfx var i output_sizes.length size
  else r

/-- Embedding of `Unflatten` (lines 105-127): loops over the length markers and, for
every non-empty marker, appends one rebinding statement. -/
def unflatten (pfx : String) (output_sizes : List String) (var : String) : String :=
  (List.range output_sizes.length).foldl (unflattenStep pfx var output_sizes) ""

/-- The text one `Unflatten` loop iteration appends. -/
def unflattenPiece (pfx var : String) (sizes : List String) (i : Nat) : String :=
  if listGetD sizes i "" = "" then ""
  else unflattenStmt pfx var i sizes.length (listGetD sizes i "")

/-- The state machine of `FlattenInputs` (line 246). -/
inductive InputsState where
  | STARTING
  | WAS_LIST_INPUT
  | WAS_SOLO_INPUT
deriving DecidableEq

/-- An argument is list-valued when it has a `type_list_attr` or a
`number_attr` (line 252). -/
def argIsList (a : ArgDef) : Bool :=
  a.type_list_attr ≠ "" || a.number_attr ≠ ""

/-- One iteration of the `FlattenInputs` loop body (lines 249-281).
State: the expression so far, the state-machine state, and the
accumulated length markers (in order). -/
def flattenStep (op : OpDef) (paramRenames : List String) (recordSizes : Bool)
    (s : String × InputsState × List String) (i : Nat) :
    String × InputsState × List String :=
  let arg := listGetD op.input_arg i {}
  let pname := listGetD paramRenames i ""
  let inputs := s.1
  let st := s.2.1
  let sizes := s.2.2
  if argIsList arg then
    let inputs := inputs ++
      (if st = .WAS_SOLO_INPUT then "] + "
       else if st = .WAS_LIST_INPUT then " + " else "")
    let inputs := inputs ++ "list(" ++ pname ++ ")"
    let sizes := if recordSizes then
        sizes ++ [if arg.number_attr ≠ "" then attrVarName arg.number_attr
                  else "len(" ++ pname ++ ")"]
      else sizes
    (inputs, .WAS_LIST_INPUT, sizes)
  else
    let inputs := inputs ++
      (if st = .WAS_SOLO_INPUT then ", "
       else if st = .WAS_LIST_INPUT then " + [" else "[")
    let inputs := inputs ++ pname
    let sizes := if recordSizes then sizes ++ [""] else sizes
    (inputs, .WAS_SOLO_INPUT, sizes)

/-- Embedding of `GenEagerPythonOp::FlattenInputs` (lines 242-288): builds the flat
input expression and, when `recordSizes` holds, the per-argument length
markers.  `indices = none` means all inputs. -/
def flattenInputs (op : OpDef) (paramRenames : List String)
    (indices : Option (List Nat)) (recordSizes : Bool) : String × List String :=
  let idxs := indices.getD (List.range op.input_arg.length)
  let s := idxs.foldl (flattenStep op paramRenames recordSizes)
    ("", InputsState.STARTING, [])
  match s with
  | (inputs, st, sizes) =>
    if st = .STARTING then ("[]", sizes)
    else if st = .WAS_SOLO_INPUT then (inputs ++ "]", sizes)
    else (inputs, sizes)

/-! ### Run-time semantics of flatten / unflatten

The generated flatten expression evaluates, at run time, each scalar
argument to one element and each list argument to its elements, spliced
in order.  The generated `Unflatten` statements rebind the flat list by
Python slicing.  We model the run-time values directly. -/

/-- A run-time argument value: scalar arguments hold one element, list
arguments hold a list of elements. -/
inductive AVal (α : Type) where
  | scalarV (a : α)
  | listV (l : List α)
deriving DecidableEq

/-- A python value appearing in the (un)flattened result list: either a
bare element or a list of values (created by the `[var[i:j]]` wrap). -/
inductive PyObj (α : Type) where
  | obj (a : α)
  | lst (l : List (PyObj α))

/-- Run-time meaning of the flatten expression built by
`flattenInputs`: scalars wrapped individually, lists spliced. -/
def flattenVals {α : Type} : List (AVal α) → List α
  | [] => []
  | .scalarV a :: rest => a :: flattenVals rest
  | .listV l :: rest => l ++ flattenVals rest

/-- Run-time meaning of the length marker `flattenInputs` records for
one argument: empty for a scalar, the list's length for a list. -/
def markerSem {α : Type} : AVal α → Option Nat
  | .scalarV _ => none
  | .listV l => some l.length

/-- The original grouping, as a list of python values: a scalar stays a
bare element, a list argument is one list value. -/
def toPyObj {α : Type} : AVal α → PyObj α
  | .scalarV a => .obj a
  | .listV l => .lst (l.map .obj)

/-- Run-time effect of executing the statements emitted by `unflatten`
on the flat value list: position `p` is the current argument index; a
`none` marker emits no statement (the loop skips it); a `some n` marker
rebinds `var = var[:p] + [var[p:p + n]] + var[p + n:]`, or
`var = var[:p] + [var[p:]]` at the last argument position. -/
def runUnflatten {α : Type} : Nat → List (Option Nat) → List (PyObj α) → List (PyObj α)
  | _, [], s => s
  | p, none :: rest, s => runUnflatten (p + 1) rest s
  | p, some n :: rest, s =>
    if rest.isEmpty then s.take p ++ [.lst (s.drop p)]
    else runUnflatten (p + 1) rest
      (s.take p ++ [.lst ((s.drop p).take n)] ++ s.drop (p + n))

/-! ### Helpers from collaborating units (not part of this source file)

The functions of `python_op_gen_internal.cc`, `op_def_util.cc` and
`op_gen_lib.cc` are declared and called here but their bodies are not
part of this repository slice; they are modelled from the spec below
and marked as such. -/

/-- Modelled from the spec: `IsPythonReserved` from
`python_op_gen_internal.cc` is missing from the source slice; the spec
speaks of "a reserved identifier" of the host language, so we model the
set as the Python keywords (plus the legacy builtins the real list
holds; only membership of ordinary keywords such as `for` matters
here). -/
def isPythonReserved (s : String) : Bool :=
  s ∈ ["and", "as", "assert", "break", "class", "continue", "def", "del",
       "elif", "else", "except", "exec", "finally", "for", "from", "global",
       "if", "import", "in", "is", "lambda", "nonlocal", "not", "or", "pass",
       "print", "raise", "return", "try", "while", "with", "yield"]

/-- Modelled from the spec: `AvoidPythonReserved` from
`python_op_gen_internal.cc` is missing from the source slice; it
mangles an identifier that collides with a reserved word. -/
def avoidPythonReserved (s : String) : String :=
  if isPythonReserved s then s ++ "_" else s

/-- Modelled from the spec: `GenerateLowerCaseOpName` from
`python_op_gen_internal.cc` is missing from the source slice; the spec
only needs that a camel-case operation name becomes the lower-case
(snake-case) function name, and that a name that is already lower case
(such as `for`) is unchanged. -/
def generateLowerCaseOpNameData : List Char → Bool → List Char
  | [], _ => []
  | c :: rest, isFirst =>
    if c.isUpper ∧ ¬ isFirst then
      '_' :: c.toLower :: generateLowerCaseOpNameData rest false
    else
      c.toLower :: generateLowerCaseOpNameData rest false

/-- Modelled from the spec: see `generateLowerCaseOpNameData`. -/
def generateLowerCaseOpName (s : String) : String :=
  ⟨generateLowerCaseOpNameData s.data true⟩

/-- Modelled from the spec: `FindInputArg` from `op_def_util.cc` is
missing from the source slice; it looks an input argument up by name. -/
def findInputArg (name : String) (op : OpDef) : ArgDef :=
  ((op.input_arg.find? (fun a => a.name = name)).getD {})

/-- Modelled from the spec: the `ApiDef` overload of `FindInputArg`
(also outside this source slice). -/
def findInputArgApi (name : String) (api : ApiDef) : ApiDefArg :=
  ((api.in_arg.find? (fun a => a.name = name)).getD {})

/-- Modelled from the spec: `FindAttr` from `op_def_util.cc` is missing
from the source slice; it looks an attribute up by name. -/
def findAttr (name : String) (op : OpDef) : AttrDef :=
  ((op.attr.find? (fun a => a.name = name)).getD {})

/-- Modelled from the spec: `DataTypeToPython` from
`python_op_gen_internal.cc` is missing from the source slice; it
renders a dtype with the given module prefix.  We store the
python-level dtype name in `ArgDef.type` / the allowed-type lists, so
the rendering is the prefix plus that name. -/
def dataTypeToPython (dtype pfx : String) : String := pfx ++ dtype

/-- Modelled from the spec: `AttrValueToPython` from
`python_op_gen_internal.cc` is missing from the source slice; per the
spec ("all others emit the schema's serialized default directly") the
rendered default is carried in `ApiDefAttr.default_py` and returned as
is. -/
def attrValueToPython (_type : String) (default_py : String) (_pfx : String) :
    String := default_py

/-- Embedding of `TensorPBString` (lines 129-146), with the proto
printer (an external library) modelled as returning the serialized
text carried in the input. -/
def tensorPBString (pb : String) : String := "\"\"\"" ++ pb ++ "\"\"\""

/-- Modelled from the spec: `ParamNames` from
`python_op_gen_internal.cc` is missing from the source slice; it pairs
the schema name of a parameter with its override rename. -/
structure ParamNames where
  name : String := ""
  rename_to : String := ""
deriving DecidableEq

/-- Modelled from the spec: `ParamNames::GetRenameTo`; the rename when
one is provided, else the schema name. -/
def paramRenameTo (p : ParamNames) : String :=
  if p.rename_to = "" then p.name else p.rename_to

/-- Modelled from the spec: `ParamNames::GetName`. -/
def paramName (p : ParamNames) : String := p.name

/-! #### Word wrap

The text formatter `WordWrap` lives in `op_gen_lib.cc`, outside this
source slice.  Modelled from the spec: it "wraps a prefix+body into
lines bounded by a column limit" by "inserting newlines plus a fixed
indentation continuation inside argument-list-like expressions only,
never inside a string literal"; so it splits the body at `, `
separators that lie outside string literals and packs the pieces
greedily against the margin, continuing wrapped lines under an
indentation as wide as the prefix. -/

/-- Modelled from the spec: split at `, ` outside double-quoted string
literals (first component of `wordWrap`). -/
def splitArgsData : List Char → Bool → List Char → List (List Char)
  | [], _, cur => [cur.reverse]
  | '"' :: rest, inQ, cur => splitArgsData rest (!inQ) ('"' :: cur)
  | ',' :: ' ' :: rest, false, cur => cur.reverse :: splitArgsData rest false []
  | c :: rest, inQ, cur => splitArgsData rest inQ (c :: cur)

/-- Modelled from the spec: see `splitArgsData`. -/
def splitArgs (s : String) : List String :=
  (splitArgsData s.data false []).map (fun l => ⟨l⟩)

/-- Modelled from the spec: greedy packing of the split pieces into
margin-bounded lines; a continued line ends with `,` and the next
starts with the indentation. -/
def packLines (indent : String) (margin : Nat) : List String → String → List String
  | [], line => [line]
  | t :: rest, line =>
    if line.length + 2 + t.length + 1 ≤ margin then
      packLines indent margin rest (line ++ ", " ++ t)
    else
      (line ++ ",") :: packLines indent margin rest (indent ++ t)

/-- Modelled from the spec: the lines `WordWrap` produces. -/
def wordWrapLines (pfx body : String) (margin : Nat) : List String :=
  let indent : String := ⟨List.replicate pfx.length ' '⟩
  match splitArgs body with
  | [] => [pfx]
  | t :: ts => packLines indent margin ts (pfx ++ t)

/-- Modelled from the spec: `WordWrap` from `op_gen_lib.cc`. -/
def wordWrap (pfx body : String) (margin : Nat) : String :=
  String.intercalate "\n" (wordWrapLines pfx body margin)

/-! ### Per-operation generator state

`GenEagerPythonOp` keeps `params_no_default_`, `params_with_default_`,
`attrs_`, `param_names_`, `attr_expressions_`, `inferred_attrs_` and
`attr_to_args_` as mutable fields filled at the start of `Code()`
(lines 290-432); we compute them into an explicit context value. -/

/-- Association-list read, the `unordered_map` `operator[]`-style read
with a default for an absent key. -/
def mapGetD (m : List (String × String)) (k d : String) : String :=
  match m.find? (fun p => p.1 = k) with
  | some p => p.2
  | none => d

/-- Association-list membership test (`find != end`). -/
def mapHas (m : List (String × String)) (k : String) : Bool :=
  (m.find? (fun p => p.1 = k)).isSome

/-- Association-list write, the `unordered_map` assignment. -/
def mapSet (m : List (String × String)) (k v : String) :
    List (String × String) :=
  if mapHas m k then m.map (fun p => if p.1 = k then (k, v) else p)
  else m ++ [(k, v)]

/-- Embedding of `gtl::InsertIfNotPresent` on `inferred_attrs_`. -/
def insertIfNotPresent (m : List (String × String)) (k v : String) :
    List (String × String) :=
  if mapHas m k then m else m ++ [(k, v)]

/-- Lookup in `attr_to_args_`. -/
def attrArgsGet (m : List (String × List Nat)) (k : String) :
    Option (List Nat) :=
  (m.find? (fun p => p.1 = k)).map (fun p => p.2)

/-- Embedding of `GenEagerPythonOp::AddAttrForArg` (lines 205-214):
records that input `arg_index` implies attribute `attr`, keeping the
first-registering argument's schema name in `inferred_attrs_` and
appending the index to the attribute's index list. -/
def addAttrForArg (op : OpDef) (attr : String) (arg_index : Nat)
    (s : List (String × String) × List (String × List Nat)) :
    List (String × String) × List (String × List Nat) :=
  let inferred := insertIfNotPresent s.1 attr (listGetD op.input_arg arg_index {}).name
  let m := s.2
  match attrArgsGet m attr with
  | none => (inferred, m ++ [(attr, [arg_index])])
  | some _ =>
    (inferred, m.map (fun p => if p.1 = attr then (p.1, p.2 ++ [arg_index]) else p))

/-- The per-operation generator context: `op_def_`, `api_def_` and the
derived fields of `GenEagerPythonOp` after lines 290-432 of `Code()`. -/
structure GenCtx where
  op : OpDef := {}
  api : ApiDef := {}
  function_name : String := ""
  add_type_annotations : Bool := false
  op_name : String := ""
  params_no_default : List ParamNames := []
  params_with_default : List (ParamNames × String) := []
  attrs : List String := []
  param_names : List ParamNames := []
  attr_expressions : List (String × String) := []
  inferred_attrs : List (String × String) := []
  attr_to_args : List (String × List Nat) := []

/-- Lines 295-308 of `Code()`: walk `api_def_.arg_order`, collect the
input parameters and register inferred attributes. -/
def collectArgOrder (op : OpDef) (api : ApiDef) :
    List ParamNames × List (String × String) × List (String × List Nat) :=
  (List.range api.arg_order.length).foldl
    (fun s i =>
      let argName := listGetD api.arg_order i ""
      let arg := findInputArg argName op
      let api_def_arg := findInputArgApi argName api
      let pnd := s.1 ++ [⟨api_def_arg.name, api_def_arg.rename_to⟩]
      let maps := s.2
      let maps :=
        if arg.type_attr ≠ "" then addAttrForArg op arg.type_attr i maps
        else if arg.type_list_attr ≠ "" then addAttrForArg op arg.type_list_attr i maps
        else maps
      let maps :=
        if arg.number_attr ≠ "" then addAttrForArg op arg.number_attr i maps
        else maps
      (pnd, maps))
    ([], [], [])

/-- The default-value expression generated for one defaulted attribute
(lines 314-340 of `Code()`). -/
def defaultExprFor (attr : AttrDef) (api_def_attr : ApiDefAttr) : String :=
  if attr.type = "tensor" then
    "_execute.make_tensor(" ++ tensorPBString api_def_attr.default_py ++ ", \"" ++
      api_def_attr.rename_to ++ "\")"
  else if attr.type = "list(tensor)" then
    "[_execute.make_tensor(_pb, \"" ++ api_def_attr.rename_to ++
      "\") for _pb in " ++ vectorToTuple (api_def_attr.default_tensors.map tensorPBString) ++ "]"
  else
    attrValueToPython attr.type api_def_attr.default_py "_dtypes."

/-- Lines 309-346 of `Code()`: walk the attributes, placing
non-inferred ones in the no-default or with-default parameter list. -/
def collectAttrParams (op : OpDef) (api : ApiDef)
    (inferred : List (String × String)) :
    List ParamNames × List (ParamNames × String) :=
  (List.range op.attr.length).foldl
    (fun s i =>
      let attr := listGetD op.attr i {}
      let api_def_attr := listGetD api.attr i {}
      if mapHas inferred attr.name then s
      else if api_def_attr.has_default_value then
        (s.1, s.2 ++ [(⟨api_def_attr.name, api_def_attr.rename_to⟩,
                       defaultExprFor attr api_def_attr)])
      else
        (s.1 ++ [(⟨api_def_attr.name, api_def_attr.rename_to⟩ : ParamNames)], s.2))
    ([], [])

/-- Lines 416-432 of `Code()`: seed `attr_expressions_` with the
explicit attr parameters and the inferred int attrs. -/
def seedAttrExpressions (op : OpDef) (attrs : List String)
    (param_names : List ParamNames) (attr_to_args : List (String × List Nat)) :
    List (String × String) :=
  let m := (List.range attrs.length).foldl
    (fun m i =>
      mapSet m (listGetD attrs i "")
        (paramRenameTo (listGetD param_names (i + op.input_arg.length) {})))
    []
  op.attr.foldl
    (fun m attr =>
      if attr.type = "int" ∧ (attrArgsGet attr_to_args attr.name).isSome then
        mapSet m attr.name (attrVarName attr.name)
      else m)
    m

/-- The derived per-operation context, faithful to lines 290-432 of
`Code()` (the parameter strings are built separately, see
`buildParameters`). -/
def makeCtx (op : OpDef) (api : ApiDef) (function_name : String)
    (add_type_annotations : Bool) : GenCtx :=
  let op_name :=
    if strStartsWith function_name "_" then strDrop function_name 1 else function_name
  let c1 := collectArgOrder op api
  let pnd0 := c1.1
  let inferred := c1.2.1
  let attr_to_args := c1.2.2
  let c2 := collectAttrParams op api inferred
  let pnd := pnd0 ++ c2.1
  let pwd := c2.2
  let attrs := (pnd.drop op.input_arg.length).map paramName ++
    pwd.map (fun p => paramName p.1)
  let param_names := pnd ++ pwd.map (fun p => p.1)
  { op := op, api := api, function_name := function_name,
    add_type_annotations := add_type_annotations, op_name := op_name,
    params_no_default := pnd, params_with_default := pwd, attrs := attrs,
    param_names := param_names,
    attr_expressions := seedAttrExpressions op attrs param_names attr_to_args,
    inferred_attrs := inferred, attr_to_args := attr_to_args }

/-- The rename of input parameter `i`, as `param_names_[i].GetRenameTo()`. -/
def ctxParamRename (ctx : GenCtx) (i : Nat) : String :=
  paramRenameTo (listGetD ctx.param_names i {})

/-- The renames of all parameters, for `FlattenInputs`. -/
def ctxRenames (ctx : GenCtx) : List String :=
  ctx.param_names.map paramRenameTo

/-- Modelled from the spec: `num_outs_` is set by the (missing)
`GenPythonOp` base constructor to the schema's output count. -/
def numOuts (ctx : GenCtx) : Nat := ctx.op.output_arg.length

/-! ### The emitters of `GenEagerPythonOp` -/

/-- The scan of `GetEagerNotAllowedError` (lines 632-651): walk the
inputs then the outputs; any `is_ref` argument forbids eager execution
and the last such argument's rename is recorded. -/
def eagerRefScan (ctx : GenCtx) : Bool × String :=
  let s := (List.range ctx.op.input_arg.length).foldl
    (fun (s : Bool × String) i =>
      let arg := listGetD ctx.op.input_arg i {}
      if arg.is_ref then (false, (listGetD ctx.api.in_arg i {}).rename_to)
      else s)
    (true, "")
  (List.range ctx.op.output_arg.length).foldl
    (fun (s : Bool × String) i =>
      let arg := listGetD ctx.op.output_arg i {}
      if arg.is_ref then (false, (listGetD ctx.api.out_arg i {}).rename_to)
      else s)
    s

/-- The fixed refusal raise for a reference-argument operation
(lines 654-656). -/
def eagerNotAllowedRaise (ctx : GenCtx) : String :=
  "raise RuntimeError(\"" ++ ctx.op_name ++
    " op does not support eager execution. " ++ "Arg '" ++
    (eagerRefScan ctx).2 ++ "' is a ref.\")\n"

/-- Embedding of `GetEagerNotAllowedError` (lines 632-657), via
`eagerRefScan` and `eagerNotAllowedRaise`. -/
def getEagerNotAllowedError (ctx : GenCtx) : String :=
  if (eagerRefScan ctx).1 then "" else eagerNotAllowedRaise ctx

/-- Embedding of `ExpectListArg` (lines 659-666). -/
def expectListArg (indentation arg_name op_name : String) : String :=
  indentation ++ "if not isinstance(" ++ arg_name ++
    ", (list, tuple)):\n" ++ indentation ++ "  raise TypeError(\n" ++
    indentation ++ "      \"Expected list for '" ++ arg_name ++
    "' argument to \"\n" ++ indentation ++ "      \"'" ++ op_name ++
    "' Op, not %r.\" % " ++ arg_name ++ ")\n"

/-- The length-equality check `GetEagerFunctionSetup` emits for a
non-first argument of a multi-argument inferred int attribute
(lines 687-695). -/
def lenCheckStmt (indentation arg_api_name op_name src_arg attr_var : String) :
    String :=
  indentation ++ "if len(" ++ arg_api_name ++ ") != " ++ attr_var ++ ":\n" ++
  indentation ++ "  raise ValueError(\n" ++
  indentation ++ "      \"List argument '" ++ arg_api_name ++ "' to '" ++
    op_name ++ "' Op with length %d \"\n" ++
  indentation ++ "      \"must match length %d of argument '" ++ src_arg ++
    "'.\" %\n" ++
  indentation ++ "      (len(" ++ arg_api_name ++ "), " ++ attr_var ++ "))\n"

/-- The inner loop of the inferred-int-attr part of
`GetEagerFunctionSetup` (lines 678-697): the first index emits the
inference statement, every later index emits the equality check. -/
def inferredSetupLoop (indentation op_name attr_name src_arg : String)
    (pnameOf : Nat → String) : Bool → List Nat → String
  | _, [] => ""
  | isFirst, a :: rest =>
    expectListArg indentation (pnameOf a) op_name ++
    (if isFirst then
      addInferredAttr indentation attr_name ("len(" ++ pnameOf a ++ ")")
    else
      lenCheckStmt indentation (pnameOf a) op_name src_arg
        (attrVarName attr_name)) ++
    inferredSetupLoop indentation op_name attr_name src_arg pnameOf false rest

/-- The first half of `GetEagerFunctionSetup` (lines 670-700): for each
int attribute inferred from inputs, validate the list arguments and
infer / check the length attribute. -/
def inferredIntSetup (ctx : GenCtx) (indentation : String) : String :=
  ctx.op.attr.foldl
    (fun acc attr =>
      if attr.type = "int" then
        match attrArgsGet ctx.attr_to_args attr.name with
        | some idxs =>
          acc ++ inferredSetupLoop indentation ctx.op_name attr.name
            (mapGetD ctx.inferred_attrs attr.name "")
            (fun i => ctxParamRename ctx i) true idxs
        | none => acc
      else acc)
    ""

/-- The conversion statement for one explicit attribute by kind
(lines 721-784): `none` means the kind is unsupported and generation of
this operation aborts; `func` and `list(func)` fall through with no
conversion statement. -/
def attrConversion (indentation api_name : String) (ty : String) :
    Option String :=
  if ty = "string" then
    some (indentation ++ api_name ++ " = _execute.make_str(" ++ api_name ++
      ", \"" ++ api_name ++ "\")\n")
  else if ty = "list(string)" then
    some (indentation ++ api_name ++ " = [_execute.make_str(_s, \"" ++
      api_name ++ "\") for _s in " ++ api_name ++ "]\n")
  else if ty = "int" then
    some (indentation ++ api_name ++ " = _execute.make_int(" ++ api_name ++
      ", \"" ++ api_name ++ "\")\n")
  else if ty = "list(int)" then
    some (indentation ++ api_name ++ " = [_execute.make_int(_i, \"" ++
      api_name ++ "\") for _i in " ++ api_name ++ "]\n")
  else if ty = "float" then
    some (indentation ++ api_name ++ " = _execute.make_float(" ++ api_name ++
      ", \"" ++ api_name ++ "\")\n")
  else if ty = "list(float)" then
    some (indentation ++ api_name ++ " = [_execute.make_float(_f, \"" ++
      api_name ++ "\") for _f in " ++ api_name ++ "]\n")
  else if ty = "bool" then
    some (indentation ++ api_name ++ " = _execute.make_bool(" ++ api_name ++
      ", \"" ++ api_name ++ "\")\n")
  else if ty = "list(bool)" then
    some (indentation ++ api_name ++ " = [_execute.make_bool(_b, \"" ++
      api_name ++ "\") for _b in " ++ api_name ++ "]\n")
  else if ty = "type" then
    some (indentation ++ api_name ++ " = _execute.make_type(" ++ api_name ++
      ", \"" ++ api_name ++ "\")\n")
  else if ty = "list(type)" then
    some (indentation ++ api_name ++ " = [_execute.make_type(_t, \"" ++
      api_name ++ "\") for _t in " ++ api_name ++ "]\n")
  else if ty = "shape" then
    some (indentation ++ api_name ++ " = _execute.make_shape(" ++ api_name ++
      ", \"" ++ api_name ++ "\")\n")
  else if ty = "list(shape)" then
    some (indentation ++ api_name ++ " = [_execute.make_shape(_s, \"" ++
      api_name ++ "\") for _s in " ++ api_name ++ "]\n")
  else if ty = "tensor" then
    some (indentation ++ api_name ++ " = _execute.make_tensor(" ++ api_name ++
      ", \"" ++ api_name ++ "\")\n")
  else if ty = "list(tensor)" then
    some (indentation ++ api_name ++ " = [_execute.make_tensor(_t, \"" ++
      api_name ++ "\") for _t in " ++ api_name ++ "]\n")
  else if ty ≠ "func" ∧ ty ≠ "list(func)" then none
  else some ""

/-- The diagnostic comment emitted when an attribute kind is
unsupported (lines 778-783). -/
def noDefinitionComment (function_name ty : String) : String :=
  "# No definition for " ++ function_name ++
  " since we don't support attrs with type\n# '" ++ ty ++ "' right now.\n\n"

/-- One explicit attribute as seen by the second loop of
`GetEagerFunctionSetup`: its api name, its kind and its optional
default expression. -/
structure SetupAttr where
  api_name : String := ""
  ty : String := ""
  dflt : Option String := none
deriving DecidableEq

/-- The second loop of `GetEagerFunctionSetup` (lines 702-785): emit
default substitution, list validation and kind conversion per explicit
attribute; an unsupported kind aborts, replacing the whole setup with
the diagnostic comment. -/
def setupAttrsLoop (indentation function_name op_name : String) :
    List SetupAttr → Bool × String
  | [] => (true, "")
  | a :: rest =>
    let piece :=
      (match a.dflt with
      | some d =>
        indentation ++ "if " ++ a.api_name ++ " is None:\n" ++
        indentation ++ "  " ++ a.api_name ++ " = " ++ d ++ "\n"
      | none => "") ++
      (if strStartsWith a.ty "list(" then
        expectListArg indentation a.api_name op_name
      else "")
    match attrConversion indentation a.api_name a.ty with
    | none => (false, noDefinitionComment function_name a.ty)
    | some conv =>
      match setupAttrsLoop indentation function_name op_name rest with
      | (false, s) => (false, s)
      | (true, s) => (true, piece ++ conv ++ s)

/-- The explicit attributes of the context in the order and with the
data the second `GetEagerFunctionSetup` loop uses (lines 702-716):
`attrs_[i]`, its rename from `param_names_`, its kind from the schema,
and its default when `i` reaches the defaulted tail. -/
def ctxSetupAttrs (ctx : GenCtx) : List SetupAttr :=
  (List.range ctx.attrs.length).map (fun i =>
    let attr_name := listGetD ctx.attrs i ""
    let param := listGetD ctx.param_names (i + ctx.op.input_arg.length) {}
    let attr := findAttr attr_name ctx.op
    let dflt :=
      if ctx.attrs.length ≤ i + ctx.params_with_default.length then
        some (listGetD ctx.params_with_default
          (i + ctx.params_with_default.length - ctx.attrs.length) ({}, "")).2
      else none
    { api_name := paramRenameTo param, ty := attr.type, dflt := dflt })

/-- Embedding of `GetEagerFunctionSetup` (lines 668-787): the inferred
int-attribute validation followed by the explicit-attribute setup;
`false` means generation of this operation aborted and the returned
text is the diagnostic comment. -/
def getEagerFunctionSetup (ctx : GenCtx) (indentation : String) :
    Bool × String :=
  let s1 := inferredIntSetup ctx indentation
  match setupAttrsLoop indentation ctx.function_name ctx.op_name
      (ctxSetupAttrs ctx) with
  | (false, s) => (false, s)
  | (true, s2) => (true, s1 ++ s2)

/-- One iteration of the `GetOutputSizesAndNumOutputsExpr` loop
(lines 796-821), on the state (sizes, count expression, fixed-output
count). -/
def outStep (ctx : GenCtx) (s : List String × String × Nat) (arg : ArgDef) :
    List String × String × Nat :=
  if arg.number_attr ≠ "" then
    let size := mapGetD ctx.attr_expressions arg.number_attr ""
    (s.1 ++ [size],
     s.2.1 ++ (if s.2.1 ≠ "" then " + " else "") ++ size, s.2.2)
  else if arg.type_list_attr ≠ "" then
    let size :=
      match (ctx.inferred_attrs.find? (fun p => p.1 = arg.type_list_attr)) with
      | some p => "len(" ++ p.2 ++ ")"
      | none => "len(" ++ mapGetD ctx.attr_expressions arg.type_list_attr "" ++ ")"
    (s.1 ++ [size],
     s.2.1 ++ (if s.2.1 ≠ "" then " + " else "") ++ size, s.2.2)
  else
    (s.1 ++ [""], s.2.1, s.2.2 + 1)

/-- Embedding of `GetOutputSizesAndNumOutputsExpr` (lines 792-830):
per output, the resolved length expression (empty for scalar outputs),
and the combined output-count expression. -/
def getOutputSizesAndNumOutputsExpr (ctx : GenCtx) : List String × String :=
  let s := (List.range (numOuts ctx)).foldl
    (fun s i => outStep ctx s (listGetD ctx.op.output_arg i {}))
    ([], "", 0)
  let num_fixed_outputs := s.2.2
  let expr :=
    if 0 < num_fixed_outputs then
      s.2.1 ++ (if s.2.1 ≠ "" then " + " else "") ++ toString num_fixed_outputs
    else s.2.1
  (s.1, if expr = "" then "0" else expr)

/-- The result reshaping emitted by both `AddEagerFunctionTeardown`
(lines 843-860) and `HandleGraphMode` (lines 608-625): a single list
output stays a list, a single scalar output is destructured to the
bare value, and two or more outputs are unflattened and wrapped in the
named output structure. -/
def resultReshape (ctx : GenCtx) (indentation : String)
    (output_sizes : List String) : String :=
  if numOuts ctx = 1 ∧ listGetD output_sizes 0 "" ≠ "" then ""
  else if numOuts ctx = 1 then indentation ++ "_result, = _result\n"
  else
    unflatten indentation output_sizes "_result" ++
    indentation ++ "_result = _" ++ avoidPythonReserved ctx.op.name ++
      "Output._make(_result)\n"

/-- Embedding of `AddEagerFunctionTeardown` (lines 832-865): gradient
recording, then the result reshaping. -/
def addEagerFunctionTeardown (ctx : GenCtx) (indentation : String)
    (output_sizes : List String) (execute_record_gradient : Bool) : String :=
  (if 0 < numOuts ctx then
    (if execute_record_gradient then
      indentation ++ "if _execute.must_record_gradient():\n" ++
      indentation ++ "  _execute.record_gradient(\n" ++ "        \"" ++
        ctx.op.name ++ "\", _inputs_flat, _attrs, _result)\n"
    else "") ++
    resultReshape ctx indentation output_sizes
  else indentation ++ "_result = None\n") ++
  indentation ++ "return _result\n\n"

/-- Modelled from the spec: `AddBodyNoReturn` from the (missing)
`GenPythonOp` base emits the graph-construction call's argument list —
"the operation name and ordered inputs/attrs" — after the given prefix
text, ending with the `name` argument and the closing parenthesis. -/
def addBodyNoReturn (ctx : GenCtx) (prefix_text : String) : String :=
  prefix_text ++
  String.intercalate ", "
    (ctx.param_names.map (fun p => paramRenameTo p ++ "=" ++ paramRenameTo p)) ++
  (if ctx.param_names.isEmpty then "" else ", ") ++ "name=name)\n"

/-- Embedding of `AddFallbackDispatch` (lines 1156-1170). -/
def addFallbackDispatch (ctx : GenCtx) (pfx : String) : String :=
  if ctx.api.visibility ≠ Visibility.VISIBLE then ""
  else
    pfx ++ "except (TypeError, ValueError):\n" ++
    pfx ++ "  _result = _dispatch.dispatch(\n" ++
    addBodyNoReturn ctx (pfx ++ "        " ++ ctx.function_name ++ ", " ++ "(), dict(") ++
    pfx ++ "      )\n" ++
    pfx ++ "  if _result is not " ++ "_dispatch.OpDispatcher.NOT_SUPPORTED:\n" ++
    pfx ++ "    return _result\n" ++
    pfx ++ "  raise\n"

/-- Embedding of `AddTypeBasedDispatcherAlias` (lines 1172-1181). -/
def addTypeBasedDispatcherAlias (ctx : GenCtx) : String :=
  if ctx.api.visibility = Visibility.VISIBLE then
    "_dispatcher_for_" ++ ctx.function_name ++ " = " ++ ctx.function_name ++
    "._tf_type_based_dispatcher.Dispatch\n"
  else ""

/-- Embedding of `AddTypeBasedDispatch` (lines 1182-1195). -/
def addTypeBasedDispatch (ctx : GenCtx) (pfx : String) : String :=
  if ctx.api.visibility ≠ Visibility.VISIBLE then ""
  else
    let args := "(" ++
      ctx.param_names.foldl (fun a p => a ++ paramRenameTo p ++ ", ") "" ++
      "name,), None"
    pfx ++ "_result = " ++ "_dispatcher_for_" ++ ctx.function_name ++ "(\n" ++
    wordWrap (pfx ++ "    ") args kRightMargin ++ ")\n" ++
    pfx ++ "if _result is not NotImplemented:\n" ++ pfx ++ "  return _result\n"

/-- Embedding of `AddRawOpExport` (lines 1197-1206). -/
def addRawOpExport (ctx : GenCtx) : String :=
  let raw_function_name := avoidPythonReserved ctx.op.name
  raw_function_name ++ " = tf_export(\"raw_ops." ++ raw_function_name ++
  "\")" ++ "(_ops.to_raw_op(" ++ ctx.function_name ++ "))\n"

/-- The graph-mode attribute tuple contents (lines 575-594): one
`"name", accessor` pair per schema attribute, by attribute kind. -/
def graphModeAttrValues (ctx : GenCtx) : String :=
  (List.range ctx.op.attr.length).foldl
    (fun acc i =>
      let attr := listGetD ctx.op.attr i {}
      let acc := if 0 < i then acc ++ ", " else acc
      if attr.type = "type" then
        acc ++ "\"" ++ attr.name ++ "\", _op._get_attr_type(\"" ++ attr.name ++ "\")"
      else if attr.type = "bool" then
        acc ++ "\"" ++ attr.name ++ "\", _op._get_attr_bool(\"" ++ attr.name ++ "\")"
      else if attr.type = "int" then
        acc ++ "\"" ++ attr.name ++ "\", _op._get_attr_int(\"" ++ attr.name ++ "\")"
      else
        acc ++ "\"" ++ attr.name ++ "\", _op.get_attr(\"" ++ attr.name ++ "\")")
    ""

/-- The leading part of `HandleGraphMode` (lines 545-557): dispatch
pre-check, setup, node construction and exception-triggered fallback
dispatch. -/
def graphPrefix (ctx : GenCtx) (function_setup : String) : String :=
  (if ctx.api.visibility = Visibility.VISIBLE then
    "  else:\n" ++ addTypeBasedDispatch ctx "    "
  else "") ++
  "  # Add nodes to the TensorFlow graph.\n" ++
  function_setup ++
  (if ctx.api.visibility = Visibility.VISIBLE then "  try:\n  " else "") ++
  "  _, _, _op, _outputs = _op_def_library._apply_op_helper(\n" ++
  addBodyNoReturn ctx ("        \"" ++ ctx.op.name ++ "\", ") ++
  addFallbackDispatch ctx "  "

/-- The graph-mode gradient bookkeeping (lines 574-606). -/
def graphGradientBlock (ctx : GenCtx) : String :=
  "  if _execute.must_record_gradient():\n" ++
  (if 0 < ctx.op.attr.length then
    wordWrap "    _attrs = (" (graphModeAttrValues ctx ++ ")") kRightMargin ++ "\n"
  else "    _attrs = ()\n") ++
  "    _inputs_flat = _op.inputs\n" ++
  "    _execute.record_gradient(\n" ++ "        \"" ++ ctx.op.name ++
    "\", _inputs_flat, _attrs, _result)\n"

/-- Embedding of `HandleGraphMode` (lines 543-630): the deferred
graph-construction path — dispatch pre-check, function setup, node
construction, the empty-list special case for a stateful single-list
output, gradient bookkeeping, and the result reshaping. -/
def handleGraphMode (ctx : GenCtx) (function_setup : String)
    (output_sizes : List String) : String :=
  graphPrefix ctx function_setup ++
  (if 0 < numOuts ctx then
    "  _result = _outputs[:]\n" ++
    (if numOuts ctx = 1 ∧ ctx.op.is_stateful ∧
        ((listGetD ctx.op.output_arg 0 {}).number_attr ≠ "" ∨
         (listGetD ctx.op.output_arg 0 {}).type_list_attr ≠ "") then
      "  if not _result:\n" ++ "    return _op\n"
    else "") ++
    graphGradientBlock ctx ++
    resultReshape ctx "  " output_sizes ++
    "  return _result\n\n"
  else "  return _op\n")

/-- The named-tuple wrap of the fast path (lines 985-991): emitted only
for more than one output. -/
def fastPathMakeWrap (ctx : GenCtx) : String :=
  if 1 < ctx.op.output_arg.length then
    "      " ++ "_result = " ++ "_" ++ avoidPythonReserved ctx.op.name ++
    "Output" ++ "._make(_result)\n"
  else ""

/-- Embedding of `AddEagerFastPathExecute` (lines 952-1019): the
immediate-execution attempt, the named-tuple wrap for more than one
output, status-error translation and the fallback invocation. -/
def addEagerFastPathExecute (ctx : GenCtx) : String :=
  let fastpath0 := "_ctx, \"" ++ ctx.op.name ++ "\", " ++ "name"
  let s := (List.range ctx.api.in_arg.length).foldl
    (fun (s : String × String) i =>
      let param_name := ctxParamRename ctx i
      (s.1 ++ ", " ++ param_name,
       s.2 ++ (if s.2 ≠ "" then ", " else "") ++ param_name))
    (fastpath0, "")
  let s := ctx.api.attr.foldl
    (fun (s : String × String) attr =>
      if ¬ mapHas ctx.inferred_attrs attr.name then
        (s.1 ++ ", \"" ++ attr.name ++ "\", " ++ attr.rename_to,
         s.2 ++ (if s.2 ≠ "" then ", " else "") ++ attr.rename_to ++ "=" ++
           attr.rename_to)
      else s)
    s
  let fastpath_execute_params := s.1
  let fallback_params := s.2 ++ (if s.2 ≠ "" then ", " else "") ++ "name=name"
  let fallback_params2 := fallback_params ++
    (if fallback_params ≠ "" then ", " else "") ++ "ctx=_ctx"
  "    try:\n" ++
  "      " ++ "_result = pywrap_tfe.TFE_Py_FastPathExecute(\n" ++
  wordWrap "        " (fastpath_execute_params ++ ")") kRightMargin ++ "\n" ++
  fastPathMakeWrap ctx ++
  "      " ++ "return _result\n" ++
  "    " ++ "except _core._NotOkStatusException as e:\n" ++
  "      " ++ "_ops.raise_from_not_ok_status(e, name)\n" ++
  "    " ++ "except _core._FallbackException:\n" ++
  "      pass\n" ++
  "    try:\n" ++
  addTypeBasedDispatch ctx "      " ++
  "      " ++ "return " ++ ctx.function_name ++ kEagerFallbackSuffix ++ "(\n" ++
  wordWrap "          " (fallback_params2 ++ ")") kRightMargin ++ "\n" ++
  "    except _core._SymbolicException:\n" ++
  "      pass  # Add nodes to the TensorFlow graph.\n" ++
  addFallbackDispatch ctx "    "

/-- The final `attr_expressions_` map as it stands when
`AddEagerAttrs` runs in the fallback path: the seeded map plus the
`_attr_` variables `AddEagerInferredAttrs` assigns for inferred `type`
and `list(type)` attributes (lines 1051 and 1083). -/
def attrExprsFinal (ctx : GenCtx) : List (String × String) :=
  ctx.op.attr.foldl
    (fun m attr =>
      if (attrArgsGet ctx.attr_to_args attr.name).isSome ∧
          (attr.type = "type" ∨ attr.type = "list(type)") then
        mapSet m attr.name (attrVarName attr.name)
      else m)
    ctx.attr_expressions

/-- Embedding of `AddEagerInferredAttrs` (lines 1021-1107): derive
inferred `type` and `list(type)` attributes from the actual argument
values, converting the arguments to eager tensors. -/
def addEagerInferredAttrs (ctx : GenCtx) (indentation : String) : String :=
  (List.range ctx.op.attr.length).foldl
    (fun acc i =>
      let attr := listGetD ctx.op.attr i {}
      let api_def_attr := listGetD ctx.api.attr i {}
      match attrArgsGet ctx.attr_to_args attr.name with
      | none => acc
      | some idxs =>
        if attr.type = "type" then
          let fl := flattenInputs ctx.op (ctxRenames ctx) (some idxs) true
          let conversion := "_execute.args_to_matching_eager(" ++ fl.1 ++ ", ctx" ++
            ", [" ++
            attr.allowed_types.foldl
              (fun a t => a ++ dataTypeToPython t "_dtypes." ++ ", ") "" ++
            "]" ++
            (if attr.has_default_value then
              ", " ++ attrValueToPython attr.type api_def_attr.default_py "_dtypes."
            else "") ++ ")"
          let var_name := attrVarName attr.name
          if fl.2.length = 1 then
            let inputs_var := ctxParamRename ctx (idxs.headD 0)
            if listGetD fl.2 0 "" = "" then
              acc ++ indentation ++ var_name ++ ", (" ++ inputs_var ++ ",) = " ++
                conversion ++ "\n"
            else
              acc ++ indentation ++ var_name ++ ", " ++ inputs_var ++ " = " ++
                conversion ++ "\n"
          else
            let inputs_var := "_inputs_" ++ attr.name
            acc ++ indentation ++ var_name ++ ", " ++ inputs_var ++ " = " ++
              conversion ++ "\n" ++
            unflatten indentation fl.2 inputs_var ++
            indentation ++
              vectorToTuple (idxs.map (fun j => ctxParamRename ctx j)) ++
              " = " ++ inputs_var ++ "\n"
        else if attr.type = "list(type)" then
          let var_name := attrVarName attr.name
          if 1 < idxs.length then
            let inputs_var :=
              vectorToTuple (idxs.map (fun j => ctxParamRename ctx j))
            acc ++ indentation ++ var_name ++ ", " ++ inputs_var ++ " = " ++
              "_execute.args_to_mixed_eager_tensors" ++ "(" ++ inputs_var ++
              ", ctx)\n"
          else
            let inputs_var := ctxParamRename ctx (idxs.headD 0)
            acc ++ indentation ++ var_name ++ ", " ++ inputs_var ++ " = " ++
              "_execute.convert_to_mixed_eager_tensors" ++ "(" ++ inputs_var ++
              ", ctx)\n"
        else acc)
    ""

/-- Embedding of `AddEagerInputCasts` (lines 1109-1121): cast the
remaining (fixed-dtype) inputs to eager tensors. -/
def addEagerInputCasts (ctx : GenCtx) (indentation : String) : String :=
  (List.range ctx.op.input_arg.length).foldl
    (fun acc i =>
      let arg := listGetD ctx.op.input_arg i {}
      if arg.type_attr ≠ "" ∨ arg.type_list_attr ≠ "" then acc
      else
        let param := ctxParamRename ctx i
        let fn := if arg.number_attr = "" then "" else "n_"
        let dtype := dataTypeToPython arg.type "_dtypes."
        acc ++ indentation ++ param ++ " = _ops.convert_" ++ fn ++
          "to_tensor(" ++ param ++ ", " ++ dtype ++ ")\n")
    ""

/-- Embedding of `AddEagerAttrs` (lines 1123-1142): the ordered
attribute tuple passed to the execute primitive. -/
def addEagerAttrs (ctx : GenCtx) (indentation : String) : String :=
  if 0 < ctx.op.attr.length then
    let attr_values := (List.range ctx.op.attr.length).foldl
      (fun acc i =>
        let attr := listGetD ctx.op.attr i {}
        (if 0 < i then acc ++ ", " else acc) ++ "\"" ++ attr.name ++ "\", " ++
          mapGetD (attrExprsFinal ctx) attr.name "")
      "" ++ ")"
    wordWrap indentation ("_attrs = (" ++ attr_values) kRightMargin ++ "\n"
  else indentation ++ "_attrs = None\n"

/-- Embedding of `AddEagerExecute` (lines 1144-1154). -/
def addEagerExecute (ctx : GenCtx) (indentation num_outputs_expr : String) :
    String :=
  let return_prefix := indentation ++ "_result = _execute.execute("
  let return_args := "b\"" ++ ctx.op.name ++ "\", " ++ num_outputs_expr ++
    ", inputs=_inputs_flat, attrs=_attrs, ctx=ctx, name=name)"
  wordWrap return_prefix return_args kRightMargin ++ "\n"

/-! ### Type annotations (lines 51-75, 454-541, 1328-1342) -/

/-- Embedding of the `dtype_type` map (lines 51-75). -/
def dtype_type : List (String × String) :=
  [("_dtypes.float16", "_dtypes.Float16"),
   ("_dtypes.half", "_dtypes.Half"),
   ("_dtypes.float32", "_dtypes.Float32"),
   ("_dtypes.float64", "_dtypes.Float64"),
   ("_dtypes.bfloat16", "_dtypes.BFloat16"),
   ("_dtypes.complex64", "_dtypes.Complex64"),
   ("_dtypes.complex128", "_dtypes.Complex128"),
   ("_dtypes.int8", "_dtypes.Int8"),
   ("_dtypes.uint8", "_dtypes.UInt8"),
   ("_dtypes.uint16", "_dtypes.UInt16"),
   ("_dtypes.uint32", "_dtypes.UInt32"),
   ("_dtypes.uint64", "_dtypes.UInt64"),
   ("_dtypes.int16", "_dtypes.Int16"),
   ("_dtypes.int32", "_dtypes.Int32"),
   ("_dtypes.int64", "_dtypes.Int64"),
   ("_dtypes.bool", "_dtypes.Bool"),
   ("_dtypes.string", "_dtypes.String"),
   ("_dtypes.qint8", "_dtypes.QInt8"),
   ("_dtypes.quint8", "_dtypes.QUInt8"),
   ("_dtypes.qint16", "_dtypes.QInt16"),
   ("_dtypes.quint16", "_dtypes.QUInt16"),
   ("_dtypes.qint32", "_dtypes.QInt32"),
   ("_dtypes.resource", "_dtypes.Resource"),
   ("_dtypes.variant", "_dtypes.Variant")]

/-- Embedding of `GetArgAnnotation` (lines 1328-1342). -/
def getArgAnnot (arg : ArgDef)
    (type_annots : List (String × String)) : String :=
  if arg.type_attr ≠ "" then
    "_ops.Tensor[" ++ mapGetD type_annots arg.type_attr "" ++ "]"
  else
    "_ops.Tensor[" ++ mapGetD dtype_type (dataTypeToPython arg.type "_dtypes.") "" ++ "]"

/-- Embedding of `GetTypeAnnotations` (lines 454-486). -/
def getTypeAnnotations (ctx : GenCtx) : List (String × String) :=
  let m := ctx.op.attr.foldl
    (fun m attr =>
      if attr.type = "type" then
        mapSet m attr.name ("TV_" ++ ctx.op.name ++ "_" ++ attr.name)
      else if attr.type = "bool" ∨ attr.type = "float" ∨ attr.type = "int" ∨
          attr.type = "bytes" then
        mapSet m attr.name attr.type
      else if attr.type = "string" then mapSet m attr.name "str"
      else m)
    []
  let m := ctx.op.input_arg.foldl
    (fun m arg =>
      if arg.number_attr ≠ "" ∨ arg.type_list_attr ≠ "" then m
      else mapSet m arg.name (getArgAnnot arg m))
    m
  if ctx.op.output_arg.length = 1 then
    let arg := listGetD ctx.op.output_arg 0 {}
    if arg.number_attr = "" ∧ arg.type_list_attr = "" then
      mapSet m arg.name (getArgAnnot arg m)
    else m
  else m

/-- String insertion into a sorted list (for the `std::sort` of
line 510). -/
def insertSorted (x : String) : List String → List String
  | [] => [x]
  | y :: ys => if x < y then x :: y :: ys else y :: insertSorted x ys

/-- Deterministic string sort (the `std::sort` of line 510). -/
def sortStrings (l : List String) : List String := l.foldr insertSorted []

/-- Embedding of `GenerateTypeVars` (lines 489-527). -/
def generateTypeVars (ctx : GenCtx) (type_annots : List (String × String)) :
    String :=
  let s := ctx.op.attr.foldl
    (fun (s : String × Bool) attr =>
      if attr.type = "type" then
        let allowed_types := attr.allowed_types.map
          (fun t => mapGetD dtype_type (dataTypeToPython t "_dtypes.") "")
        let allowed_types :=
          if allowed_types.isEmpty then dtype_type.map (fun p => p.2)
          else allowed_types
        let typevar_dtypes := String.intercalate ", " (sortStrings allowed_types)
        let type_var_name := mapGetD type_annots attr.name ""
        (s.1 ++ type_var_name ++ " = TypeVar(\"" ++ type_var_name ++ "\", " ++
          typevar_dtypes ++ ")\n", true)
      else s)
    ("", false)
  if s.2 then s.1 ++ "\n" else s.1

/-- Character-level suffix removal (for line 537's `erase`). -/
def strDropRight (s : String) (n : Nat) : String :=
  ⟨s.data.take (s.data.length - n)⟩

/-- Embedding of `AddReturnTypeAnnotation` (lines 529-541), applied to
the def line it patches: for a single scalar output, replace the
trailing `:\n` by ` -> T:\n`. -/
def addReturnTypeAnnot (ctx : GenCtx) (type_annots : List (String × String))
    (def_line : String) : String :=
  if ctx.op.output_arg.length = 1 then
    let arg := listGetD ctx.op.output_arg 0 {}
    if arg.number_attr = "" ∧ arg.type_list_attr = "" then
      strDropRight def_line 2 ++ " -> " ++ mapGetD type_annots arg.name "" ++
        ":\n"
    else def_line
  else def_line

/-! ### Assembling one operation's block -/

/-- Modelled from the spec: `AddDefLine` from the (missing)
`GenPythonOp` base emits the function header. -/
def addDefLine (function_name parameters : String) : String :=
  "def " ++ function_name ++ "(" ++ parameters ++ "):\n"

/-- Modelled from the spec: `AddExport` and the docstring emitters of
the (missing) `GenPythonOp` base contribute only documentation and
export decoration, with no bearing on the properties verified here;
they are modelled as empty text. -/
def addExport (_ctx : GenCtx) : String := ""

/-- Modelled from the spec: `AddOutputGlobals` from the (missing)
`GenPythonOp` base declares, for an operation with more than one
output, the named output structure — "a named, positionally-ordered
structure whose field order matches the schema's output order". -/
def outputGlobalsFields (ctx : GenCtx) : List String :=
  ctx.op.output_arg.map (fun a => a.name)

/-- Modelled from the spec: see `outputGlobalsFields`. -/
def addOutputGlobals (ctx : GenCtx) : String :=
  if 1 < numOuts ctx then
    "_" ++ avoidPythonReserved ctx.op.name ++
    "Output = collections.namedtuple(\n    \"" ++
    avoidPythonReserved ctx.op.name ++ "\",\n    [" ++
    String.intercalate ", "
      ((outputGlobalsFields ctx).map (fun f => "\"" ++ f ++ "\"")) ++ "])\n\n"
  else ""

/-- Lines 376-414 of `Code()`: the two parameter strings (without and
with defaults), each ending in the `name` parameter. -/
def buildParameters (ctx : GenCtx) (type_annots : List (String × String)) :
    String × String :=
  let parameters := ctx.params_no_default.foldl
    (fun acc param =>
      let acc := (if acc ≠ "" then acc ++ ", " else acc) ++ paramRenameTo param
      if mapHas type_annots (paramName param) then
        acc ++ ": " ++ mapGetD type_annots (paramName param) ""
      else acc)
    ""
  let s := ctx.params_with_default.foldl
    (fun (s : String × String) pd =>
      let p := (if s.1 ≠ "" then s.1 ++ ", " else s.1) ++ paramRenameTo pd.1
      let pwd := (if s.2 ≠ "" then s.2 ++ ", " else s.2) ++ paramRenameTo pd.1
      let has := mapHas type_annots (paramName pd.1)
      let p := if has then p ++ ": " ++ mapGetD type_annots (paramName pd.1) ""
        else p
      let pwd := if has then pwd ++ ":" ++ mapGetD type_annots (paramName pd.1) ""
        else pwd
      (p, pwd ++ "=" ++ pd.2))
    (parameters, parameters)
  (s.1 ++ (if s.1 = "" then "" else ", ") ++ "name",
   s.2 ++ (if s.2 = "" then "" else ", ") ++ "name=None")

/-- Embedding of `AddEagerFastPathAndGraphCode` (lines 867-915): the
decorated function with the eager branch (fast path, or the refusal
stub for reference arguments) and the deferred graph path; returns
`false` with the diagnostic comment when the setup aborts, else the
function text and the prelude contribution. -/
def addEagerFastPathAndGraphCode (ctx : GenCtx) (parameters : String)
    (output_sizes : List String) (eager_not_allowed_error : String)
    (type_annots : List (String × String)) : Bool × String × String :=
  let typevars :=
    if ctx.add_type_annotations then generateTypeVars ctx type_annots else ""
  let decorators :=
    if ctx.api.visibility = Visibility.VISIBLE then
      "@_dispatch.add_fallback_dispatch_list\n" ++
      "@_dispatch.add_type_based_api_dispatcher\n"
    else ""
  let def_line := addDefLine ctx.function_name parameters
  let def_line :=
    if ctx.add_type_annotations then addReturnTypeAnnot ctx type_annots def_line
    else def_line
  let doc_part := "  \"\"\"\n"
  let ctx_lines := "  _ctx = _context._context or _context.context()\n" ++
    "  tld = _ctx._thread_local_data\n" ++ "  if tld.is_eager:" ++ "\n"
  let eager_branch :=
    if eager_not_allowed_error = "" then addEagerFastPathExecute ctx
    else "    " ++ eager_not_allowed_error
  match getEagerFunctionSetup ctx "  " with
  | (false, s) => (false, s, addOutputGlobals ctx)
  | (true, function_setup) =>
    (true,
     typevars ++ decorators ++ addExport ctx ++ def_line ++ doc_part ++
       ctx_lines ++ eager_branch ++
       handleGraphMode ctx function_setup output_sizes ++
       addRawOpExport ctx ++ addTypeBasedDispatcherAlias ctx ++ "\n\n",
     addOutputGlobals ctx)

/-- Embedding of `AddEagerFallbackCode` (lines 917-950): the fallback
function; for a reference-argument operation its body is only the
refusal stub. -/
def addEagerFallbackCode (ctx : GenCtx) (parameters : String)
    (output_sizes : List String) (num_outputs_expr : String)
    (eager_not_allowed_error : String)
    (type_annots : List (String × String)) : Bool × String :=
  let def_line := addDefLine (ctx.function_name ++ kEagerFallbackSuffix)
    (parameters ++ (if parameters = "" then "" else ", ") ++ "ctx")
  let def_line :=
    if ctx.add_type_annotations then addReturnTypeAnnot ctx type_annots def_line
    else def_line
  if eager_not_allowed_error ≠ "" then
    (true, def_line ++ "  " ++ eager_not_allowed_error)
  else
    match getEagerFunctionSetup ctx "  " with
    | (false, s) => (false, s)
    | (true, function_setup) =>
      (true,
       def_line ++ function_setup ++
       addEagerInferredAttrs ctx "  " ++
       addEagerInputCasts ctx "  " ++
       "  _inputs_flat = " ++ (flattenInputs ctx.op (ctxRenames ctx) none false).1 ++
         "\n" ++
       addEagerAttrs ctx "  " ++
       addEagerExecute ctx "  " num_outputs_expr ++
       addEagerFunctionTeardown ctx "  " output_sizes true)

/-- Embedding of `GenEagerPythonOp::Code` (lines 290-452): one
operation's whole text block; empty for a skipped operation, the
diagnostic comment alone when setup aborts. -/
def code (op : OpDef) (api : ApiDef) (function_name : String)
    (add_type_annotations : Bool) : String :=
  if api.visibility = Visibility.SKIP then ""
  else
    let ctx := makeCtx op api function_name add_type_annotations
    let type_annots :=
      if add_type_annotations then getTypeAnnotations ctx else []
    let ps := buildParameters ctx type_annots
    let so := getOutputSizesAndNumOutputsExpr ctx
    let eager_not_allowed_error := getEagerNotAllowedError ctx
    match addEagerFastPathAndGraphCode ctx ps.2 so.1 eager_not_allowed_error
        type_annots with
    | (false, r, _) => r
    | (true, r1, prelude) =>
      match addEagerFallbackCode ctx ps.1 so.1 so.2 eager_not_allowed_error
          type_annots with
      | (false, r2) => r2
      | (true, r2) => prelude ++ r1 ++ r2

/-! ### The batch driver (lines 1208-1299) -/

/-- Modelled from the spec: `IsOpWithUnderscorePrefix` from
`python_op_gen_internal.cc` is missing from the source slice; it holds
a fixed exception set of names that always get the underscore prefix.
The spec does not enumerate it, and no claim depends on its contents,
so the modelled set is empty. -/
def isOpWithUnderscorePrefix (_s : String) : Bool := false

/-- The file header emitted by `GetPythonOpsImpl` (lines 1214-1247). -/
def getPythonOpsHeader (source_file_list : List String) : String :=
  "\"\"\"Python wrappers around TensorFlow ops.\n\nThis file is MACHINE GENERATED! Do not edit.\n" ++
  (if source_file_list.isEmpty then ""
   else "Original C++ source file: " ++
     String.intercalate ", " source_file_list ++ "\n") ++
  "\"\"\"\n\n" ++ "import collections\n\nfrom tensorflow.python " ++
  "import pywrap_tfe as pywrap_tfe\nfrom tensorflow.python.eager " ++
  "import context as _context\nfrom tensorflow.python.eager " ++
  "import core as _core\nfrom tensorflow.python.eager " ++
  "import execute as _execute\nfrom tensorflow.python.framework " ++
  "import dtypes as _dtypes\n\nfrom tensorflow.python.framework " ++
  "import op_def_registry as _op_def_registry\nfrom tensorflow.python.framework " ++
  "import ops as _ops\nfrom tensorflow.python.framework " ++
  "import op_def_library as _op_def_library\nfrom tensorflow.python.util.deprecation " ++
  "import deprecated_endpoints\nfrom tensorflow.python.util " ++
  "import dispatch as _dispatch\nfrom tensorflow.python.util.tf_export " ++
  "import tf_export\n\nfrom typing " ++ "import TypeVar\n"

/-- One operation's contribution to the generated unit (the loop body
of `GetPythonOpsImpl`, lines 1249-1296): skip, visibility-driven name
mangling, or the generated block. -/
def opContribution (op : OpDef) (api : ApiDef) (hidden_ops : List String)
    (type_annotate_ops : List String) : String :=
  if api.visibility = Visibility.SKIP then ""
  else
    let hidden_by_api_def := api.visibility = Visibility.HIDDEN
    let is_hidden := hidden_by_api_def ∨ hidden_ops.contains op.name
    let function_name := generateLowerCaseOpName op.name
    let is_reserved := isPythonReserved function_name
    let add_type_annotations := type_annotate_ops.contains op.name
    if is_hidden then
      let function_name :=
        if ¬ hidden_by_api_def ∨ is_reserved ∨
            isOpWithUnderscorePrefix function_name then
          "_" ++ function_name
        else function_name
      code op api function_name add_type_annotations
    else if is_reserved then ""
    else code op api function_name add_type_annotations

/-- Embedding of `GetPythonOpsImpl` (lines 1208-1299): the header plus
each operation's contribution, in presentation order. -/
def getPythonOpsImpl (ops : List (OpDef × ApiDef)) (hidden_ops : List String)
    (source_file_list : List String) (type_annotate_ops : List String) :
    String :=
  getPythonOpsHeader source_file_list ++
  ops.foldl
    (fun acc p => acc ++ opContribution p.1 p.2 hidden_ops type_annotate_ops)
    ""

/-! ### Characterization helpers -/

/-- Separator join (closed form used to characterize the emitted
`+`-joined count expressions). -/
def joinSep (sep : String) : List String → String
  | [] => ""
  | [x] => x
  | x :: y :: xs => x ++ sep ++ joinSep sep (y :: xs)

/-- The running count-expression accumulation of
`GetOutputSizesAndNumOutputsExpr`: each piece joins with ` + ` once
the expression is non-empty. -/
def exprJoin (e : String) (ps : List String) : String :=
  ps.foldl (fun e p => e ++ (if e ≠ "" then " + " else "") ++ p) e

/-- The resolved length expression of one output argument (the branch
taken by `GetOutputSizesAndNumOutputsExpr` at lines 798-817): `none`
for a purely scalar output. -/
def outputSizeExpr (ctx : GenCtx) (arg : ArgDef) : Option String :=
  if arg.number_attr ≠ "" then
    some (mapGetD ctx.attr_expressions arg.number_attr "")
  else if arg.type_list_attr ≠ "" then
    some (match ctx.inferred_attrs.find? (fun p => p.1 = arg.type_list_attr) with
      | some p => "len(" ++ p.2 ++ ")"
      | none => "len(" ++ mapGetD ctx.attr_expressions arg.type_list_attr "" ++ ")")
  else none

/-- The list-output length expressions, in output order. -/
def outputPieces (ctx : GenCtx) : List String :=
  ctx.op.output_arg.filterMap (outputSizeExpr ctx)

/-- The number of purely scalar outputs. -/
def scalarOutputsCount (ctx : GenCtx) : Nat :=
  (ctx.op.output_arg.filter (fun a => outputSizeExpr ctx a = none)).length

/-! ### Concrete operations exercising the generator -/

/-- A plain binary operation with one scalar output (the spec's `Add`
scenario). -/
def addOp : OpDef :=
  { name := "Add",
    input_arg := [{ name := "x", type_attr := "T" }, { name := "y", type_attr := "T" }],
    output_arg := [{ name := "z", type_attr := "T" }],
    attr := [{ name := "T", type := "type", allowed_types := ["int32", "float32"] }] }

/-- Override layer for `addOp`. -/
def addApi : ApiDef :=
  { visibility := .VISIBLE,
    in_arg := [{ name := "x", rename_to := "x" }, { name := "y", rename_to := "y" }],
    out_arg := [{ name := "z", rename_to := "z" }],
    attr := [{ name := "T", rename_to := "T" }],
    arg_order := ["x", "y"] }

/-- An operation with two scalar outputs and a list output driven by a
count attribute. -/
def mixedOutOp : OpDef :=
  { name := "MixedOut",
    input_arg := [{ name := "x", type := "int32" }],
    output_arg := [{ name := "a", type := "int32" },
                   { name := "items", type := "int32", number_attr := "N" },
                   { name := "b", type := "int32" }],
    attr := [{ name := "N", type := "int" }] }

/-- Override layer for `mixedOutOp`. -/
def mixedOutApi : ApiDef :=
  { visibility := .VISIBLE,
    in_arg := [{ name := "x", rename_to := "x" }],
    out_arg := [{ name := "a", rename_to := "a" },
                { name := "items", rename_to := "items" },
                { name := "b", rename_to := "b" }],
    attr := [{ name := "N", rename_to := "N" }],
    arg_order := ["x"] }

/-- An operation with a reference input (eager execution refused). -/
def refOp : OpDef :=
  { name := "RefAssign",
    input_arg := [{ name := "ref", type := "int32", is_ref := true },
                  { name := "value", type := "int32" }],
    output_arg := [],
    attr := [] }

/-- Override layer for `refOp`. -/
def refApi : ApiDef :=
  { visibility := .VISIBLE,
    in_arg := [{ name := "ref", rename_to := "ref" },
               { name := "value", rename_to := "value" }],
    out_arg := [],
    attr := [],
    arg_order := ["ref", "value"] }

/-- An operation with a `func`-kind attribute. -/
def funcAttrOp : OpDef :=
  { name := "WithFunc",
    input_arg := [{ name := "x", type := "int32" }],
    output_arg := [{ name := "y", type := "int32" }],
    attr := [{ name := "f", type := "func" }] }

/-- Override layer for `funcAttrOp`. -/
def funcAttrApi : ApiDef :=
  { visibility := .VISIBLE,
    in_arg := [{ name := "x", rename_to := "x" }],
    out_arg := [{ name := "y", rename_to := "y" }],
    attr := [{ name := "f", rename_to := "f" }],
    arg_order := ["x"] }

/-- An operation named `For`, whose generated function name `for` is a
reserved identifier. -/
def forOp : OpDef :=
  { name := "For",
    input_arg := [{ name := "x", type := "int32" }],
    output_arg := [{ name := "y", type := "int32" }],
    attr := [] }

/-- Visible override layer for `forOp`. -/
def forApiVisible : ApiDef :=
  { visibility := .VISIBLE,
    in_arg := [{ name := "x", rename_to := "x" }],
    out_arg := [{ name := "y", rename_to := "y" }],
    attr := [],
    arg_order := ["x"] }

/-- Hidden override layer for `forOp`. -/
def forApiHidden : ApiDef :=
  { visibility := .HIDDEN,
    in_arg := [{ name := "x", rename_to := "x" }],
    out_arg := [{ name := "y", rename_to := "y" }],
    attr := [],
    arg_order := ["x"] }

/-- A stateful operation whose single output is list-valued. -/
def statefulListOp : OpDef :=
  { name := "StatefulList",
    input_arg := [],
    output_arg := [{ name := "outs", type := "int32", number_attr := "N" }],
    attr := [{ name := "N", type := "int" }],
    is_stateful := true }

/-- Override layer for `statefulListOp`. -/
def statefulListApi : ApiDef :=
  { visibility := .VISIBLE,
    in_arg := [],
    out_arg := [{ name := "outs", rename_to := "outs" }],
    attr := [{ name := "N", rename_to := "N" }],
    arg_order := [] }

/-- An operation with an int attribute inferred from two sibling list
inputs. -/
def siblingsOp : OpDef :=
  { name := "Siblings",
    input_arg := [{ name := "xs", type := "int32", number_attr := "N" },
                  { name := "ys", type := "int32", number_attr := "N" }],
    output_arg := [{ name := "zs", type := "int32", number_attr := "N" }],
    attr := [{ name := "N", type := "int" }] }

/-- Override layer for `siblingsOp`. -/
def siblingsApi : ApiDef :=
  { visibility := .VISIBLE,
    in_arg := [{ name := "xs", rename_to := "xs" }, { name := "ys", rename_to := "ys" }],
    out_arg := [{ name := "zs", rename_to := "zs" }],
    attr := [{ name := "N", rename_to := "N" }],
    arg_order := ["xs", "ys"] }

/-- An operation with a long-named list input (exercising unwrapped
emission sites). -/
def longOp : OpDef :=
  { name := "LongValidation",
    input_arg := [{ name := "a_list_input_argument_with_a_rather_long_descriptive_name",
                    type := "int32", number_attr := "N" }],
    output_arg := [],
    attr := [{ name := "N", type := "int" }] }

/-- Override layer for `longOp`. -/
def longApi : ApiDef :=
  { visibility := .VISIBLE,
    in_arg := [{ name := "a_list_input_argument_with_a_rather_long_descriptive_name",
                 rename_to := "a_list_input_argument_with_a_rather_long_descriptive_name" }],
    out_arg := [],
    attr := [{ name := "N", rename_to := "N" }],
    arg_order := ["a_list_input_argument_with_a_rather_long_descriptive_name"] }

/-- Derived context of `addOp`. -/
def addCtx : GenCtx := makeCtx addOp addApi "add" false

/-- Derived context of `mixedOutOp`. -/
def mixedOutCtx : GenCtx := makeCtx mixedOutOp mixedOutApi "mixed_out" false

/-- Derived context of `refOp`. -/
def refCtx : GenCtx := makeCtx refOp refApi "ref_assign" false

/-- Derived context of `statefulListOp`. -/
def statefulListCtx : GenCtx :=
  makeCtx statefulListOp statefulListApi "stateful_list" false

/-- Derived context of `siblingsOp`. -/
def siblingsCtx : GenCtx := makeCtx siblingsOp siblingsApi "siblings" false

/-- Derived context of `longOp`. -/
def longCtx : GenCtx := makeCtx longOp longApi "long_validation" false

/-- Joining the split pieces back with the `, ` separator (the inverse
of `splitArgsData`). -/
def joinArgsData : List (List Char) → List Char
  | [] => []
  | [t] => t
  | t :: ts => t ++ ',' :: ' ' :: joinArgsData ts

/-- Maximum generated line length, over the characters of the unit. -/
def maxLineLenData : List Char → Nat → Nat → Nat
  | [], cur, m => max m cur
  | c :: rest, cur, m =>
    if c = '\n' then maxLineLenData rest 0 (max m cur)
    else maxLineLenData rest (cur + 1) m

/-- Maximum line length of a generated text. -/
def maxLineLen (s : String) : Nat := maxLineLenData s.data 0 0

/-! ### String helper lemmas -/

theorem str_append_assoc (a b c : String) : a ++ b ++ c = a ++ (b ++ c) := by
  apply String.ext
  simp [String.data_append, List.append_assoc]

theorem str_append_empty (a : String) : a ++ "" = a := by
  apply String.ext
  simp [String.data_append]

theorem str_empty_append (a : String) : "" ++ a = a := by
  apply String.ext
  simp [String.data_append]

theorem str_append_ne_empty (a b : String) (h : a ≠ "") : a ++ b ≠ "" := by
  intro he
  apply h
  apply String.ext
  have hd := congrArg String.data he
  simp [String.data_append] at hd
  simp [hd.1]

theorem str_foldl_append (l : List String) : ∀ (a b : String),
    l.foldl (· ++ ·) (a ++ b) = a ++ l.foldl (· ++ ·) b := by
  induction l with
  | nil => intro a b; rfl
  | cons x xs ih =>
    intro a b
    simp only [List.foldl_cons]
    rw [str_append_assoc]
    exact ih a (b ++ x)

theorem str_join_cons (x : String) (xs : List String) :
    String.join (x :: xs) = x ++ String.join xs := by
  show (x :: xs).foldl (· ++ ·) "" = x ++ xs.foldl (· ++ ·) ""
  simp only [List.foldl_cons]
  rw [str_empty_append, ← str_append_empty x, str_foldl_append, str_append_empty]

/-! ### C1: the flatten / unflatten round trip -/

/-- Auxiliary induction for the round trip: if the first `g.length`
positions of the flat variable are already in final grouped form and
the remainder is the flattening of `vals`, running the unflatten
statements starting at position `g.length` regroups the remainder. -/
theorem runUnflatten_aux {α : Type} (vals : List (AVal α)) : ∀ (g : List (PyObj α)),
    runUnflatten g.length (vals.map markerSem) (g ++ (flattenVals vals).map PyObj.obj)
      = g ++ vals.map toPyObj := by
  induction vals with
  | nil => intro g; simp [runUnflatten, flattenVals]
  | cons v rest ih =>
    intro g
    cases v with
    | scalarV a =>
      have hs : g ++ (flattenVals (AVal.scalarV a :: rest)).map PyObj.obj
          = (g ++ [PyObj.obj a]) ++ (flattenVals rest).map PyObj.obj := by
        simp [flattenVals]
      have hl : g.length + 1 = (g ++ [PyObj.obj a]).length := by simp
      calc runUnflatten g.length ((AVal.scalarV a :: rest).map markerSem)
              (g ++ (flattenVals (AVal.scalarV a :: rest)).map PyObj.obj)
          = runUnflatten (g.length + 1) (rest.map markerSem)
              ((g ++ [PyObj.obj a]) ++ (flattenVals rest).map PyObj.obj) := by
            rw [hs]; rfl
        _ = (g ++ [PyObj.obj a]) ++ rest.map toPyObj := by rw [hl]; exact ih _
        _ = g ++ (AVal.scalarV a :: rest).map toPyObj := by simp [toPyObj]
    | listV l =>
      cases rest with
      | nil =>
        show runUnflatten g.length [some l.length] (g ++ (flattenVals [AVal.listV l]).map PyObj.obj)
            = g ++ [AVal.listV l].map toPyObj
        have hs : (flattenVals [AVal.listV l]).map PyObj.obj = l.map PyObj.obj := by
          simp [flattenVals]
        rw [hs]
        show (g ++ l.map PyObj.obj).take g.length ++
            [PyObj.lst ((g ++ l.map PyObj.obj).drop g.length)]
            = g ++ [AVal.listV l].map toPyObj
        simp [toPyObj]
      | cons r rs =>
        have hflat : (flattenVals (AVal.listV l :: r :: rs)).map PyObj.obj
            = l.map PyObj.obj ++ (flattenVals (r :: rs)).map PyObj.obj := by
          simp [flattenVals]
        have hstep : runUnflatten g.length ((AVal.listV l :: r :: rs).map markerSem)
              (g ++ (flattenVals (AVal.listV l :: r :: rs)).map PyObj.obj)
            = runUnflatten (g.length + 1) ((r :: rs).map markerSem)
              ((g ++ (flattenVals (AVal.listV l :: r :: rs)).map PyObj.obj).take g.length ++
               [PyObj.lst (((g ++ (flattenVals (AVal.listV l :: r :: rs)).map PyObj.obj).drop g.length).take l.length)] ++
               (g ++ (flattenVals (AVal.listV l :: r :: rs)).map PyObj.obj).drop (g.length + l.length)) := by
          rfl
        rw [hstep]
        have htake : (g ++ (flattenVals (AVal.listV l :: r :: rs)).map PyObj.obj).take g.length = g := by
          rw [hflat]; simp
        have hdropg : (g ++ (flattenVals (AVal.listV l :: r :: rs)).map PyObj.obj).drop g.length
            = l.map PyObj.obj ++ (flattenVals (r :: rs)).map PyObj.obj := by
          rw [hflat]; simp
        have htaken : ((g ++ (flattenVals (AVal.listV l :: r :: rs)).map PyObj.obj).drop g.length).take l.length
            = l.map PyObj.obj := by
          rw [hdropg]
          have : l.length = (l.map PyObj.obj).length := by simp
          rw [this, List.take_left]
        have hdrop2 : (g ++ (flattenVals (AVal.listV l :: r :: rs)).map PyObj.obj).drop (g.length + l.length)
            = (flattenVals (r :: rs)).map PyObj.obj := by
          rw [hflat, ← List.append_assoc]
          have : g.length + l.length = (g ++ l.map PyObj.obj).length := by simp
          rw [this, List.drop_left]
        rw [htake, htaken, hdrop2]
        have harr : g ++ [PyObj.lst (l.map PyObj.obj)] ++ (flattenVals (r :: rs)).map PyObj.obj
            = (g ++ [PyObj.lst (l.map PyObj.obj)]) ++ (flattenVals (r :: rs)).map PyObj.obj := rfl
        have hl : g.length + 1 = (g ++ [PyObj.lst (l.map PyObj.obj)]).length := by simp
        rw [harr, hl, ih (g ++ [PyObj.lst (l.map PyObj.obj)])]
        simp [toPyObj]

/-- Accumulation of the length markers over the `FlattenInputs` loop. -/
theorem flatten_sizes_aux (op : OpDef) (pr : List String) (idxs : List Nat) :
    ∀ (s : String × InputsState × List String),
    (idxs.foldl (flattenStep op pr true) s).2.2
      = s.2.2 ++ idxs.map (fun i =>
          let arg := listGetD op.input_arg i {}
          if argIsList arg then
            if arg.number_attr ≠ "" then attrVarName arg.number_attr
            else "len(" ++ listGetD pr i "" ++ ")"
          else "") := by
  induction idxs with
  | nil => intro s; simp
  | cons i rest ih =>
    intro s
    simp only [List.foldl_cons, List.map_cons]
    rw [ih]
    by_cases h : argIsList (listGetD op.input_arg i {})
    · by_cases hn : (listGetD op.input_arg i {}).number_attr ≠ ""
      · simp [flattenStep, h, hn]
      · simp [flattenStep, h, hn]
    · simp [flattenStep, h]

/-- The markers returned by `flattenInputs` (all-inputs form). -/
theorem flattenInputs_sizes (op : OpDef) (pr : List String) :
    (flattenInputs op pr none true).2
      = (List.range op.input_arg.length).map (fun i =>
          let arg := listGetD op.input_arg i {}
          if argIsList arg then
            if arg.number_attr ≠ "" then attrVarName arg.number_attr
            else "len(" ++ listGetD pr i "" ++ ")"
          else "") := by
  unfold flattenInputs
  have h := flatten_sizes_aux op pr (List.range op.input_arg.length)
    ("", InputsState.STARTING, [])
  rcases hfold : (List.range op.input_arg.length).foldl (flattenStep op pr true)
      ("", InputsState.STARTING, []) with ⟨inputs, st, sizes⟩
  rw [hfold] at h
  simp only [Option.getD_none]
  rw [hfold]
  by_cases h1 : st = InputsState.STARTING <;>
    by_cases h2 : st = InputsState.WAS_SOLO_INPUT <;>
      · simp only [h1, h2]
        simpa using h

/-- Claim C1 (flatten/unflatten round-trip): for every ordered list of
input-argument run-time values (each scalar or list-valued), executing
the `Unflatten` statements with the markers recorded by flattening
reconstructs the original grouping exactly: every slice group sits at
the original argument position and the groups concatenate back to the
flat input.  The second conjunct ties the semantic markers to the ones
`flattenInputs` records: the recorded marker for argument `i` is empty
exactly when argument `i` is scalar. -/
theorem c1_flatten_unflatten_roundtrip :
    (∀ (α : Type) (vals : List (AVal α)),
      runUnflatten 0 (vals.map markerSem) ((flattenVals vals).map PyObj.obj)
        = vals.map toPyObj)
  ∧ (∀ (op : OpDef) (pr : List String),
      ((flattenInputs op pr none true).2).map (fun s => decide (s = ""))
        = (List.range op.input_arg.length).map
            (fun i => !argIsList (listGetD op.input_arg i {}))) := by
  constructor
  · intro α vals
    have h := runUnflatten_aux vals ([] : List (PyObj α))
    simpa using h
  · intro op pr
    rw [flattenInputs_sizes, List.map_map]
    apply List.map_congr_left
    intro i _
    simp only [Function.comp_apply]
    by_cases h : argIsList (listGetD op.input_arg i {})
    · by_cases hn : (listGetD op.input_arg i {}).number_attr = ""
      · have hne : ("len(" ++ listGetD pr i "" ++ ")") ≠ "" := by
          rw [str_append_assoc]
          exact str_append_ne_empty "len(" _ (by decide)
        simp [h, hn, hne]
      · have hne : ("_attr_" ++ (listGetD op.input_arg i {}).number_attr) ≠ "" :=
          str_append_ne_empty "_attr_" _ (by decide)
        simp [h, hn, attrVarName, hne]
    · simp [h]

/-! ### C8: structure of the unflatten emission -/

theorem unflattenStep_eq (pfx var : String) (sizes : List String) (r : String) (i : Nat) :
    unflattenStep pfx var sizes r i = r ++ unflattenPiece pfx var sizes i := by
  unfold unflattenStep unflattenPiece
  by_cases h : listGetD sizes i "" = ""
  · rw [if_neg (by simp [h]), if_pos h, str_append_empty]
  · rw [if_pos h, if_neg h]

/-- Closed form of the `Unflatten` loop: the appended text is the join
of one piece per position, empty-marker positions contributing nothing. -/
theorem unflatten_foldl_aux (pfx var : String) (sizes : List String) (l : List Nat) :
    ∀ (acc : String),
    l.foldl (unflattenStep pfx var sizes) acc
      = acc ++ String.join (l.map (unflattenPiece pfx var sizes)) := by
  induction l with
  | nil =>
    intro acc
    simp only [List.foldl_nil, List.map_nil]
    have hj : String.join ([] : List String) = "" := rfl
    rw [hj, str_append_empty]
  | cons x xs ih =>
    intro acc
    simp only [List.foldl_cons, List.map_cons]
    rw [str_join_cons, unflattenStep_eq, ih, str_append_assoc]

/-- Claim C8 (unflatten rebinding structure):
(1) the emitted text is one statement per non-empty length marker, in
argument order, with empty-marker positions skipped entirely;
(2) the statement at argument index 0 (when further arguments follow)
slices with the bare symbolic marker `s` — it carries no `0 +` term;
(3) the statement at index `i > 0` (when further arguments follow)
rebinds through `var` with the symbolic end offset `i + s` built from
the position and the marker expression, never a concretely evaluated
total;
(4) at the last argument position the slice `var[i:]` takes the whole
remainder. -/
theorem c8_unflatten_emission :
    (∀ (pfx var : String) (sizes : List String),
      unflatten pfx sizes var
        = String.join ((List.range sizes.length).map (unflattenPiece pfx var sizes))
      ∧ ∀ i : Nat, listGetD sizes i "" = "" → unflattenPiece pfx var sizes i = "")
  ∧ (∀ (pfx var s : String) (e : Nat), 1 < e →
      unflattenStmt pfx var 0 e s
        = pfx ++ var ++ " = " ++ "[" ++ var ++ "[:" ++ s ++ "]] + " ++ var ++
          "[" ++ s ++ ":]" ++ "\n")
  ∧ (∀ (pfx var s : String) (i e : Nat), 0 < i → i + 1 < e →
      unflattenStmt pfx var i e s
        = pfx ++ var ++ " = " ++ var ++ "[:" ++ toString i ++ "] + " ++ "[" ++
          var ++ "[" ++ toString i ++ ":" ++ toString i ++ " + " ++ s ++
          "]] + " ++ var ++ "[" ++ toString i ++ " + " ++ s ++ ":]" ++ "\n")
  ∧ (∀ (pfx var s : String) (i : Nat),
      unflattenStmt pfx var i (i + 1) s
        = pfx ++ var ++ " = " ++
          (if 0 < i then var ++ "[:" ++ toString i ++ "] + " else "") ++
          "[" ++ var ++ "[" ++ toString i ++ ":]]" ++ "\n") := by
  refine ⟨?_, ?_, ?_, ?_⟩
  · intro pfx var sizes
    refine ⟨?_, ?_⟩
    · unfold unflatten
      rw [unflatten_foldl_aux, str_empty_append]
    · intro i hi
      unfold unflattenPiece
      rw [if_pos hi]
  · intro pfx var s e he
    unfold unflattenStmt
    rw [if_neg (Nat.lt_irrefl 0), if_pos (by omega : 0 + 1 < e), if_pos rfl,
      str_append_empty]
    simp only [str_append_assoc]
  · intro pfx var s i e hi he
    unfold unflattenStmt
    rw [if_pos hi, if_pos he, if_neg (by omega : ¬ i = 0)]
    simp only [str_append_assoc]
  · intro pfx var s i
    unfold unflattenStmt
    rw [if_neg (by omega : ¬ i + 1 < i + 1)]
    by_cases hi : 0 < i
    · rw [if_pos hi]
      simp only [str_append_assoc]
    · rw [if_neg hi]
      simp only [str_append_assoc]

/-- Witness for `c8_unflatten_emission`: at argument index 0 of a
three-argument group the emitted slice carries no `0 +` term. -/
theorem c8_unflatten_emission_witness :
    (1 < 3)
  ∧ unflattenStmt "  " "_result" 0 3 "len(images)"
      = "  " ++ "_result" ++ " = " ++ "[" ++ "_result" ++ "[:" ++ "len(images)" ++
        "]] + " ++ "_result" ++ "[" ++ "len(images)" ++ ":]" ++ "\n" :=
  ⟨by decide, c8_unflatten_emission.2.1 "  " "_result" "len(images)" 3 (by decide)⟩

/-! ### Generic fold lemmas -/

/-- A string-accumulating fold is the accumulator followed by the join
of the per-element pieces. -/
theorem foldl_append_join {α : Type} (f : α → String) (l : List α) :
    ∀ (acc : String),
    l.foldl (fun a x => a ++ f x) acc = acc ++ String.join (l.map f) := by
  induction l with
  | nil =>
    intro acc
    simp only [List.foldl_nil, List.map_nil]
    have hj : String.join ([] : List String) = "" := rfl
    rw [hj, str_append_empty]
  | cons x xs ih =>
    intro acc
    simp only [List.foldl_cons, List.map_cons]
    rw [str_join_cons, ih, str_append_assoc]

/-- A fold over `List.range l.length` reading elements through
`listGetD` is a fold over the list itself. -/
theorem foldl_range_listGetD {α β : Type} (l : List α) (d : α)
    (f : β → α → β) : ∀ (s : β),
    (List.range l.length).foldl (fun s i => f s (listGetD l i d)) s
      = l.foldl f s := by
  induction l with
  | nil => intro s; rfl
  | cons x xs ih =>
    intro s
    rw [List.length_cons, List.range_succ_eq_map, List.foldl_cons,
      List.foldl_map]
    exact ih (f s x)

/-! ### C3: behaviour on `func` / `list(func)` and unknown attribute kinds -/

/-- Counterexample to claim C3 as stated: for the concrete operation
`funcAttrOp`, whose only explicit attribute has kind `func`, the
generated setup succeeds (`true`) and emits no text at all — in
particular the operation's block is not replaced by a diagnostic
comment, so generation does not abort on a `func`-kind attribute. -/
theorem c3_counterexample :
    getEagerFunctionSetup (makeCtx funcAttrOp funcAttrApi "with_func" false) "  "
      = (true, "") := by
  decide

/-- Claim C3 (amended): an attribute whose kind lies outside the
supported set and is neither `func` nor `list(func)` aborts generation
of that single operation, replacing its setup with the short diagnostic
comment naming the kind; `func` and `list(func)` attributes are
accepted silently, emitting no conversion statement; and the batch
driver emits each operation's contribution independently, so one
operation's abort never stops the batch. -/
theorem c3_unsupported_attr_kind :
    (∀ (ind fname opName : String) (a : SetupAttr) (rest : List SetupAttr),
      a.ty ∉ ["string", "list(string)", "int", "list(int)", "float",
              "list(float)", "bool", "list(bool)", "type", "list(type)",
              "shape", "list(shape)", "tensor", "list(tensor)", "func",
              "list(func)"] →
      setupAttrsLoop ind fname opName (a :: rest)
        = (false, noDefinitionComment fname a.ty))
  ∧ (∀ (ind n : String),
      attrConversion ind n "func" = some "" ∧
      attrConversion ind n "list(func)" = some "")
  ∧ (∀ (ops : List (OpDef × ApiDef)) (hidden_ops source_file_list
        type_annotate_ops : List String),
      getPythonOpsImpl ops hidden_ops source_file_list type_annotate_ops
        = getPythonOpsHeader source_file_list ++
          String.join (ops.map (fun p =>
            opContribution p.1 p.2 hidden_ops type_annotate_ops))) := by
  refine ⟨?_, ?_, ?_⟩
  · intro ind fname opName a rest h
    simp only [List.mem_cons, List.not_mem_nil, or_false, not_or] at h
    obtain ⟨h1, h2, h3, h4, h5, h6, h7, h8, h9, h10, h11, h12, h13, h14, h15, h16⟩ := h
    have hconv : attrConversion ind a.api_name a.ty = none := by
      simp [attrConversion, h1, h2, h3, h4, h5, h6, h7, h8, h9, h10, h11, h12,
        h13, h14, h15, h16]
    simp [setupAttrsLoop, hconv]
  · intro ind n
    constructor <;> rfl
  · intro ops hidden_ops source_file_list type_annotate_ops
    unfold getPythonOpsImpl
    rw [foldl_append_join, str_empty_append]

/-- Witness for `c3_unsupported_attr_kind`: an attribute of the
unrecognized kind `placeholder` aborts with the diagnostic comment. -/
theorem c3_unsupported_attr_kind_witness :
    setupAttrsLoop "  " "my_op" "MyOp"
      [{ api_name := "cfg", ty := "placeholder" }]
      = (false, noDefinitionComment "my_op" "placeholder") :=
  c3_unsupported_attr_kind.1 "  " "my_op" "MyOp"
    { api_name := "cfg", ty := "placeholder" } [] (by decide)

/-! ### C4: visibility and name mangling -/

/-- Counterexample to claim C4 as stated: the operation literally named
`For` (generated name `for`, a reserved identifier) contributes nothing
to the output in the visible name mode — it is dropped entirely, not
generated under a mangled identifier. -/
theorem c4_counterexample :
    opContribution forOp forApiVisible [] [] = "" := by
  decide

/-- Claim C4 (amended): a skip-visibility operation contributes
nothing; a hidden operation is always generated — under an
underscore-prefixed name when it is hidden via the hidden list, its
generated name is reserved, or it is in the underscore-prefix
exception set, and under its plain name otherwise; a non-hidden
operation whose generated name is reserved is dropped entirely.  In
particular `For` is generated as `_for` in both hidden name modes. -/
theorem c4_visibility_and_mangling :
    (∀ (op : OpDef) (api : ApiDef) (h t : List String),
      api.visibility = Visibility.SKIP → opContribution op api h t = "")
  ∧ (∀ (op : OpDef) (api : ApiDef) (h t : List String),
      api.visibility = Visibility.HIDDEN →
      opContribution op api h t
        = code op api
            (if isPythonReserved (generateLowerCaseOpName op.name) = true ∨
                isOpWithUnderscorePrefix (generateLowerCaseOpName op.name) = true
             then "_" ++ generateLowerCaseOpName op.name
             else generateLowerCaseOpName op.name)
            (t.contains op.name))
  ∧ (∀ (op : OpDef) (api : ApiDef) (h t : List String),
      api.visibility ≠ Visibility.SKIP →
      api.visibility ≠ Visibility.HIDDEN →
      h.contains op.name = true →
      opContribution op api h t
        = code op api ("_" ++ generateLowerCaseOpName op.name)
            (t.contains op.name))
  ∧ (∀ (op : OpDef) (api : ApiDef) (h t : List String),
      api.visibility ≠ Visibility.SKIP →
      api.visibility ≠ Visibility.HIDDEN →
      h.contains op.name = false →
      isPythonReserved (generateLowerCaseOpName op.name) = true →
      opContribution op api h t = "")
  ∧ opContribution forOp forApiHidden [] [] = code forOp forApiHidden "_for" false
  ∧ opContribution forOp forApiVisible ["For"] []
      = code forOp forApiVisible "_for" false := by
  refine ⟨?_, ?_, ?_, ?_, ?_, ?_⟩
  · intro op api h t hv
    simp [opContribution, hv]
  · intro op api h t hv
    simp only [opContribution, hv]
    simp
  · intro op api h t hv1 hv2 hc
    simp only [opContribution, hc]
    rw [if_neg hv1, if_pos (Or.inr trivial), if_pos (Or.inl hv2)]
  · intro op api h t hv1 hv2 hc hr
    simp only [opContribution, hc, Bool.false_eq_true]
    rw [if_neg hv1, if_neg (by simp [hv2]), if_pos hr]
  · have hg : generateLowerCaseOpName "For" = "for" := by decide
    have hr : isPythonReserved "for" = true := by decide
    simp [opContribution, forApiHidden, forOp, hg, hr]
  · have hg : generateLowerCaseOpName "For" = "for" := by decide
    have hr : isPythonReserved "for" = true := by decide
    simp [opContribution, forApiVisible, forOp, hg, hr]

/-- Witness for `c4_visibility_and_mangling`: a skip-visibility operation contributes
nothing, and a visible reserved-name operation is dropped. -/
theorem c4_visibility_and_mangling_witness :
    opContribution forOp { forApiVisible with visibility := .SKIP } [] [] = ""
  ∧ opContribution forOp forApiVisible [] [] = "" :=
  ⟨c4_visibility_and_mangling.1 forOp _ [] [] rfl,
   c4_visibility_and_mangling.2.2.2.1 forOp forApiVisible [] []
     (by decide) (by decide) (by decide) (by decide)⟩

/-! ### C5: reference arguments refuse eager execution -/

/-- The ref-scan fold keeps `false` once a ref argument was seen. -/
theorem foldl_refScan_fst (f : Nat → Bool) (r : Nat → String) (l : List Nat) :
    ∀ (s : Bool × String),
    ((l.foldl (fun s i => if f i = true then (false, r i) else s) s).1)
      = (s.1 && l.all (fun i => !f i)) := by
  induction l with
  | nil => intro s; simp
  | cons x xs ih =>
    intro s
    simp only [List.foldl_cons, List.all_cons]
    by_cases h : f x = true
    · rw [if_pos h, ih]
      simp [h]
    · rw [if_neg h, ih]
      simp only [Bool.not_eq_true] at h
      simp [h]

/-- An `all` over `List.range l.length` through `listGetD` is an `all`
over the list. -/
theorem all_range_listGetD {α : Type} (l : List α) (d : α) (p : α → Bool) :
    (List.range l.length).all (fun i => p (listGetD l i d)) = l.all p := by
  induction l with
  | nil => rfl
  | cons x xs ih =>
    rw [List.length_cons, List.range_succ_eq_map, List.all_cons, List.all_map]
    show (p (listGetD (x :: xs) 0 d) &&
      (List.range xs.length).all ((fun i => p (listGetD (x :: xs) i d)) ∘ Nat.succ))
        = (p x && xs.all p)
    have : ((fun i => p (listGetD (x :: xs) i d)) ∘ Nat.succ)
        = (fun i => p (listGetD xs i d)) := by
      funext i
      rfl
    rw [this, ih]
    rfl

/-- Specialization of `all_range_listGetD` to the ref test. -/
theorem all_range_not_ref (l : List ArgDef) :
    ((List.range l.length).all fun i => !(listGetD l i ({} : ArgDef)).is_ref)
      = l.all (fun a => !a.is_ref) :=
  all_range_listGetD l {} (fun a => !a.is_ref)

/-- The first component of `eagerRefScan`: `true` exactly when no input
or output argument is a ref. -/
theorem eagerRefScan_fst (ctx : GenCtx) :
    (eagerRefScan ctx).1
      = (ctx.op.input_arg.all (fun a => !a.is_ref) &&
         ctx.op.output_arg.all (fun a => !a.is_ref)) := by
  unfold eagerRefScan
  rw [foldl_refScan_fst (fun i => (listGetD ctx.op.output_arg i {}).is_ref)
    (fun i => (listGetD ctx.api.out_arg i {}).rename_to)]
  rw [foldl_refScan_fst (fun i => (listGetD ctx.op.input_arg i {}).is_ref)
    (fun i => (listGetD ctx.api.in_arg i {}).rename_to)]
  rw [all_range_not_ref, all_range_not_ref]
  simp

/-- Claim C5 (reference-argument operations): when some input or output
argument is a ref, (1) the emitted eager error is the fixed
`RuntimeError` raise naming the reference argument; (2) the fallback
function body is exactly the def line plus the refusal — no coercion
or execute body is emitted; (3) the main function's eager branch is
exactly the refusal, and the only remaining executable logic is the
deferred graph path. -/
theorem c5_ref_args_refuse_eager :
    (∀ (ctx : GenCtx),
      (ctx.op.input_arg.any (fun a => a.is_ref) ∨
       ctx.op.output_arg.any (fun a => a.is_ref)) →
      getEagerNotAllowedError ctx = eagerNotAllowedRaise ctx)
  ∧ (∀ (ctx : GenCtx) (params : String) (sizes : List String)
       (nexpr err : String) (annots : List (String × String)), err ≠ "" →
      addEagerFallbackCode ctx params sizes nexpr err annots
        = (true,
           (if ctx.add_type_annotations then
             addReturnTypeAnnot ctx annots
               (addDefLine (ctx.function_name ++ kEagerFallbackSuffix)
                 (params ++ (if params = "" then "" else ", ") ++ "ctx"))
            else
             addDefLine (ctx.function_name ++ kEagerFallbackSuffix)
               (params ++ (if params = "" then "" else ", ") ++ "ctx")) ++
           "  " ++ err))
  ∧ (∀ (ctx : GenCtx) (params : String) (sizes : List String) (err : String)
       (annots : List (String × String)) (st : String), err ≠ "" →
      getEagerFunctionSetup ctx "  " = (true, st) →
      addEagerFastPathAndGraphCode ctx params sizes err annots
        = (true,
           (if ctx.add_type_annotations then generateTypeVars ctx annots
            else "") ++
           (if ctx.api.visibility = Visibility.VISIBLE then
             "@_dispatch.add_fallback_dispatch_list\n" ++
             "@_dispatch.add_type_based_api_dispatcher\n"
            else "") ++
           addExport ctx ++
           (if ctx.add_type_annotations then
             addReturnTypeAnnot ctx annots (addDefLine ctx.function_name params)
            else addDefLine ctx.function_name params) ++
           "  \"\"\"\n" ++
           ("  _ctx = _context._context or _context.context()\n" ++
            "  tld = _ctx._thread_local_data\n" ++ "  if tld.is_eager:" ++ "\n") ++
           ("    " ++ err) ++
           handleGraphMode ctx st sizes ++
           addRawOpExport ctx ++ addTypeBasedDispatcherAlias ctx ++ "\n\n",
           addOutputGlobals ctx)) := by
  refine ⟨?_, ?_, ?_⟩
  · intro ctx h
    have hscan : (eagerRefScan ctx).1 = false := by
      rw [eagerRefScan_fst]
      rcases h with h | h
      · rcases List.any_eq_true.mp h with ⟨a, ha, hra⟩
        have : ctx.op.input_arg.all (fun a => !a.is_ref) = false :=
          List.all_eq_false.mpr ⟨a, ha, by simp [hra]⟩
        simp [this]
      · rcases List.any_eq_true.mp h with ⟨a, ha, hra⟩
        have : ctx.op.output_arg.all (fun a => !a.is_ref) = false :=
          List.all_eq_false.mpr ⟨a, ha, by simp [hra]⟩
        simp [this]
    simp [getEagerNotAllowedError, hscan]
  · intro ctx params sizes nexpr err annots herr
    simp only [addEagerFallbackCode]
    rw [if_pos herr]
  · intro ctx params sizes err annots st herr hset
    simp only [addEagerFastPathAndGraphCode, hset]
    rw [if_neg herr]

/-- Witness for `c5_ref_args_refuse_eager` at the concrete reference
operation `refOp`. -/
theorem c5_ref_args_refuse_eager_witness :
    (refOp.input_arg.any (fun a => a.is_ref) ∨
     refOp.output_arg.any (fun a => a.is_ref))
  ∧ getEagerNotAllowedError refCtx = eagerNotAllowedRaise refCtx
  ∧ ("E" : String) ≠ ""
  ∧ addEagerFallbackCode refCtx "p" [] "0" "E" []
      = (true,
         (if refCtx.add_type_annotations then
           addReturnTypeAnnot refCtx []
             (addDefLine (refCtx.function_name ++ kEagerFallbackSuffix)
               ("p" ++ (if ("p" : String) = "" then "" else ", ") ++ "ctx"))
          else
           addDefLine (refCtx.function_name ++ kEagerFallbackSuffix)
             ("p" ++ (if ("p" : String) = "" then "" else ", ") ++ "ctx")) ++
         "  " ++ "E")
  ∧ getEagerFunctionSetup refCtx "  " = (true, "")
  ∧ addEagerFastPathAndGraphCode refCtx "p" [] "E" []
      = (true,
         (if refCtx.add_type_annotations then generateTypeVars refCtx []
          else "") ++
         (if refCtx.api.visibility = Visibility.VISIBLE then
           "@_dispatch.add_fallback_dispatch_list\n" ++
           "@_dispatch.add_type_based_api_dispatcher\n"
          else "") ++
         addExport refCtx ++
         (if refCtx.add_type_annotations then
           addReturnTypeAnnot refCtx [] (addDefLine refCtx.function_name "p")
          else addDefLine refCtx.function_name "p") ++
         "  \"\"\"\n" ++
         ("  _ctx = _context._context or _context.context()\n" ++
          "  tld = _ctx._thread_local_data\n" ++ "  if tld.is_eager:" ++ "\n") ++
         ("    " ++ "E") ++
         handleGraphMode refCtx "" [] ++
         addRawOpExport refCtx ++ addTypeBasedDispatcherAlias refCtx ++ "\n\n",
         addOutputGlobals refCtx) :=
  ⟨Or.inl (by decide),
   c5_ref_args_refuse_eager.1 refCtx (Or.inl (by decide)),
   by decide,
   c5_ref_args_refuse_eager.2.1 refCtx "p" [] "0" "E" [] (by decide),
   by decide,
   c5_ref_args_refuse_eager.2.2 refCtx "p" [] "E" [] "" (by decide) (by decide)⟩

/-! ### C10: stateful single-list-output graph mode -/

/-- Claim C10 (stateful single-list-output special case): for a
stateful operation whose single output is list-valued (it has a
`number_attr` or a `type_list_attr`), the deferred graph-mode body
emits, right after capturing the node's outputs, a guard that returns
the constructed operation node itself whenever the output list is
empty at run time; for any other operation with outputs no such guard
is emitted. -/
theorem c10_stateful_single_list_output :
    (∀ (ctx : GenCtx) (fs : String) (sizes : List String),
      numOuts ctx = 1 →
      ctx.op.is_stateful = true →
      ((listGetD ctx.op.output_arg 0 {}).number_attr ≠ "" ∨
       (listGetD ctx.op.output_arg 0 {}).type_list_attr ≠ "") →
      handleGraphMode ctx fs sizes
        = graphPrefix ctx fs ++
          ("  _result = _outputs[:]\n" ++
           ("  if not _result:\n" ++ "    return _op\n") ++
           graphGradientBlock ctx ++
           resultReshape ctx "  " sizes ++
           "  return _result\n\n"))
  ∧ (∀ (ctx : GenCtx) (fs : String) (sizes : List String),
      0 < numOuts ctx →
      ¬ (numOuts ctx = 1 ∧ ctx.op.is_stateful = true ∧
         ((listGetD ctx.op.output_arg 0 {}).number_attr ≠ "" ∨
          (listGetD ctx.op.output_arg 0 {}).type_list_attr ≠ "")) →
      handleGraphMode ctx fs sizes
        = graphPrefix ctx fs ++
          ("  _result = _outputs[:]\n" ++ "" ++
           graphGradientBlock ctx ++
           resultReshape ctx "  " sizes ++
           "  return _result\n\n")) := by
  constructor
  · intro ctx fs sizes h1 h2 h3
    simp only [handleGraphMode]
    rw [if_pos (by omega : 0 < numOuts ctx), if_pos ⟨h1, h2, h3⟩]
  · intro ctx fs sizes h1 h2
    simp only [handleGraphMode]
    rw [if_pos h1, if_neg h2]

/-- Witness for `c10_stateful_single_list_output` at the concrete
stateful single-list-output operation. -/
theorem c10_stateful_single_list_output_witness :
    numOuts statefulListCtx = 1
  ∧ statefulListCtx.op.is_stateful = true
  ∧ (listGetD statefulListCtx.op.output_arg 0 {}).number_attr ≠ ""
  ∧ handleGraphMode statefulListCtx "" ["_attr_N"]
      = graphPrefix statefulListCtx "" ++
        ("  _result = _outputs[:]\n" ++
         ("  if not _result:\n" ++ "    return _op\n") ++
         graphGradientBlock statefulListCtx ++
         resultReshape statefulListCtx "  " ["_attr_N"] ++
         "  return _result\n\n") :=
  ⟨by decide, by decide, by decide,
   c10_stateful_single_list_output.1 statefulListCtx "" ["_attr_N"]
     (by decide) (by decide) (Or.inl (by decide))⟩

/-! ### C2: return-value structure per output arity -/

/-- Claim C2 (result structure): with exactly one non-list output,
every emitted path returns the bare value: the reshaping emitted by
the fallback teardown and the graph path is exactly the destructuring
`_result, = _result` (no tuple-like wrap), and the fast path emits no
named-tuple wrap.  With two or more outputs every path wraps the
result in the named output structure via `_make`, and the (modelled)
named structure lists its fields in the schema's output order.  The
conjuncts: (1) reshape for one scalar output; (2) reshape for several
outputs; (3) the fallback teardown routes its result through that
reshape; (4) the graph path routes its result through that reshape;
(5) the fast-path wrap is empty for at most one output; (6) the
fast-path wrap is the `_make` call for several outputs; (7) field
order of the named structure. -/
theorem c2_return_structure :
    (∀ (ctx : GenCtx) (ind : String) (sizes : List String),
      numOuts ctx = 1 → listGetD sizes 0 "" = "" →
      resultReshape ctx ind sizes = ind ++ "_result, = _result\n")
  ∧ (∀ (ctx : GenCtx) (ind : String) (sizes : List String),
      2 ≤ numOuts ctx →
      resultReshape ctx ind sizes
        = unflatten ind sizes "_result" ++ ind ++ "_result = _" ++
          avoidPythonReserved ctx.op.name ++ "Output._make(_result)\n")
  ∧ (∀ (ctx : GenCtx) (ind : String) (sizes : List String) (rec : Bool),
      0 < numOuts ctx →
      addEagerFunctionTeardown ctx ind sizes rec
        = (if rec then
            ind ++ "if _execute.must_record_gradient():\n" ++
            ind ++ "  _execute.record_gradient(\n" ++ "        \"" ++
              ctx.op.name ++ "\", _inputs_flat, _attrs, _result)\n"
          else "") ++
          resultReshape ctx ind sizes ++ ind ++ "return _result\n\n")
  ∧ (∀ (ctx : GenCtx) (fs : String) (sizes : List String),
      0 < numOuts ctx →
      handleGraphMode ctx fs sizes
        = graphPrefix ctx fs ++
          ("  _result = _outputs[:]\n" ++
           (if numOuts ctx = 1 ∧ ctx.op.is_stateful ∧
               ((listGetD ctx.op.output_arg 0 {}).number_attr ≠ "" ∨
                (listGetD ctx.op.output_arg 0 {}).type_list_attr ≠ "") then
             "  if not _result:\n" ++ "    return _op\n"
           else "") ++
           graphGradientBlock ctx ++
           resultReshape ctx "  " sizes ++
           "  return _result\n\n"))
  ∧ (∀ (ctx : GenCtx), ctx.op.output_arg.length ≤ 1 → fastPathMakeWrap ctx = "")
  ∧ (∀ (ctx : GenCtx), 2 ≤ ctx.op.output_arg.length →
      fastPathMakeWrap ctx
        = "      " ++ "_result = " ++ "_" ++ avoidPythonReserved ctx.op.name ++
          "Output" ++ "._make(_result)\n")
  ∧ (∀ (ctx : GenCtx),
      outputGlobalsFields ctx = ctx.op.output_arg.map (fun a => a.name)) := by
  refine ⟨?_, ?_, ?_, ?_, ?_, ?_, ?_⟩
  · intro ctx ind sizes h1 h2
    unfold resultReshape
    rw [if_neg (by simp [h2]), if_pos h1]
  · intro ctx ind sizes h
    unfold resultReshape
    rw [if_neg (by rintro ⟨he, _⟩; omega), if_neg (by omega)]
  · intro ctx ind sizes rec h
    unfold addEagerFunctionTeardown
    rw [if_pos h]
  · intro ctx fs sizes h
    unfold handleGraphMode
    rw [if_pos h]
  · intro ctx h
    unfold fastPathMakeWrap
    rw [if_neg (by omega)]
  · intro ctx h
    unfold fastPathMakeWrap
    rw [if_pos (by omega)]
  · intro ctx
    rfl

/-- Witness for `c2_return_structure`: the single-scalar-output
operation destructures to the bare value, the three-output operation
wraps in the named structure. -/
theorem c2_return_structure_witness :
    numOuts addCtx = 1
  ∧ listGetD [""] 0 "" = ""
  ∧ resultReshape addCtx "  " [""] = "  " ++ "_result, = _result\n"
  ∧ fastPathMakeWrap addCtx = ""
  ∧ 2 ≤ numOuts mixedOutCtx
  ∧ resultReshape mixedOutCtx "  " ["", "_attr_N", ""]
      = unflatten "  " ["", "_attr_N", ""] "_result" ++ "  " ++ "_result = _" ++
        avoidPythonReserved mixedOutCtx.op.name ++ "Output._make(_result)\n"
  ∧ fastPathMakeWrap mixedOutCtx
      = "      " ++ "_result = " ++ "_" ++
        avoidPythonReserved mixedOutCtx.op.name ++ "Output" ++
        "._make(_result)\n"
  ∧ outputGlobalsFields mixedOutCtx = ["a", "items", "b"] :=
  ⟨by decide, by decide,
   c2_return_structure.1 addCtx "  " [""] (by decide) (by decide),
   c2_return_structure.2.2.2.2.1 addCtx (by decide),
   by decide,
   c2_return_structure.2.1 mixedOutCtx "  " ["", "_attr_N", ""] (by decide),
   c2_return_structure.2.2.2.2.2.1 mixedOutCtx (by decide),
   by decide⟩

/-! ### C6: inferred int attributes from several inputs -/

/-- Pointwise-equal fold bodies give equal folds. -/
theorem foldl_funext {α β : Type} (f g : β → α → β)
    (hfg : ∀ a x, f a x = g a x) (l : List α) : ∀ (s : β),
    l.foldl f s = l.foldl g s := by
  induction l with
  | nil => intro s; rfl
  | cons x xs ih =>
    intro s
    rw [List.foldl_cons, List.foldl_cons, hfg]
    exact ih _

/-- The non-first part of the inferred-int-attr loop: one validation
plus one equality check per remaining index. -/
theorem inferredSetupLoop_false (ind opName attrName srcArg : String)
    (pnameOf : Nat → String) (rest : List Nat) :
    inferredSetupLoop ind opName attrName srcArg pnameOf false rest
      = String.join (rest.map fun r =>
          expectListArg ind (pnameOf r) opName ++
          lenCheckStmt ind (pnameOf r) opName srcArg (attrVarName attrName)) := by
  induction rest with
  | nil => rfl
  | cons r rs ih =>
    simp only [inferredSetupLoop, List.map_cons]
    rw [str_join_cons, ih]
    simp only [Bool.false_eq_true, ite_false, str_append_assoc]

/-- Claim C6 (multi-input inferred int attribute): for an integer
attribute inferred from the argument group `a :: rest`, the emitted
setup is, in order: the list validation of argument `a` followed by
the inference statement assigning `_attr_<name> = len(<a>)`, and then,
for every subsequent argument, its list validation followed by an
equality check whose error text names both the checked argument and
the attribute's source argument and formats both the observed and the
expected lengths; the setup emitter produces exactly this text for
every inferred int attribute, in schema attribute order. -/
theorem c6_inferred_int_attr_checks :
    (∀ (ind opName attrName srcArg : String) (pnameOf : Nat → String)
       (a : Nat) (rest : List Nat),
      inferredSetupLoop ind opName attrName srcArg pnameOf true (a :: rest)
        = expectListArg ind (pnameOf a) opName ++
          (ind ++ ("_attr_" ++ attrName) ++ " = " ++
            ("len(" ++ pnameOf a ++ ")") ++ "\n") ++
          String.join (rest.map fun r =>
            expectListArg ind (pnameOf r) opName ++
            lenCheckStmt ind (pnameOf r) opName srcArg ("_attr_" ++ attrName)))
  ∧ (∀ (ind arg opName srcArg attrVar : String),
      lenCheckStmt ind arg opName srcArg attrVar
        = ind ++ "if len(" ++ arg ++ ") != " ++ attrVar ++ ":\n" ++
          ind ++ "  raise ValueError(\n" ++
          ind ++ "      \"List argument '" ++ arg ++ "' to '" ++ opName ++
            "' Op with length %d \"\n" ++
          ind ++ "      \"must match length %d of argument '" ++ srcArg ++
            "'.\" %\n" ++
          ind ++ "      (len(" ++ arg ++ "), " ++ attrVar ++ "))\n")
  ∧ (∀ (ctx : GenCtx) (ind : String),
      inferredIntSetup ctx ind
        = String.join (ctx.op.attr.map (fun attr =>
            if attr.type = "int" then
              match attrArgsGet ctx.attr_to_args attr.name with
              | some idxs =>
                inferredSetupLoop ind ctx.op_name attr.name
                  (mapGetD ctx.inferred_attrs attr.name "")
                  (fun i => ctxParamRename ctx i) true idxs
              | none => ""
            else ""))) := by
  refine ⟨?_, ?_, ?_⟩
  · intro ind opName attrName srcArg pnameOf a rest
    simp only [inferredSetupLoop]
    rw [inferredSetupLoop_false]
    simp [addInferredAttr, attrVarName, str_append_assoc]
  · intro ind arg opName srcArg attrVar
    rfl
  · intro ctx ind
    unfold inferredIntSetup
    have hbody : ∀ (acc : String) (attr : AttrDef),
        (if attr.type = "int" then
          match attrArgsGet ctx.attr_to_args attr.name with
          | some idxs =>
            acc ++ inferredSetupLoop ind ctx.op_name attr.name
              (mapGetD ctx.inferred_attrs attr.name "")
              (fun i => ctxParamRename ctx i) true idxs
          | none => acc
        else acc)
        = acc ++
          (if attr.type = "int" then
            match attrArgsGet ctx.attr_to_args attr.name with
            | some idxs =>
              inferredSetupLoop ind ctx.op_name attr.name
                (mapGetD ctx.inferred_attrs attr.name "")
                (fun i => ctxParamRename ctx i) true idxs
            | none => ""
          else "") := by
      intro acc attr
      by_cases h : attr.type = "int"
      · rw [if_pos h, if_pos h]
        cases attrArgsGet ctx.attr_to_args attr.name with
        | none => exact (str_append_empty acc).symm
        | some idxs => rfl
      · rw [if_neg h, if_neg h]
        exact (str_append_empty acc).symm
    rw [foldl_funext _ _ hbody, foldl_append_join, str_empty_append]

/-! ### C7: the output-count expression -/

theorem joinSep_cons_cons (sep x y : String) (xs : List String) :
    joinSep sep (x :: y :: xs) = x ++ sep ++ joinSep sep (y :: xs) := rfl

theorem joinSep_head_join (sep : String) : ∀ (ps : List String) (p : String),
    joinSep sep (p :: ps) = p ++ String.join (ps.map (fun q => sep ++ q)) := by
  intro ps
  induction ps with
  | nil =>
    intro p
    show p = p ++ String.join []
    exact (str_append_empty p).symm
  | cons q qs ih =>
    intro p
    rw [joinSep_cons_cons, ih, List.map_cons, str_join_cons]
    simp only [str_append_assoc]

theorem joinSep_append_singleton (sep p : String) :
    ∀ (ps : List String), ps ≠ [] →
    joinSep sep (ps ++ [p]) = joinSep sep ps ++ sep ++ p := by
  intro ps
  induction ps with
  | nil => intro h; exact absurd rfl h
  | cons x xs ih =>
    intro _
    cases xs with
    | nil => rfl
    | cons y ys =>
      show joinSep sep (x :: ((y :: ys) ++ [p])) = _
      have hx : (y :: ys) ++ [p] = y :: (ys ++ [p]) := rfl
      rw [hx, joinSep_cons_cons, ← hx, ih (by simp), joinSep_cons_cons]
      simp only [str_append_assoc]

theorem joinSep_ne_empty (sep : String) : ∀ (ps : List String), ps ≠ [] →
    (∀ p ∈ ps, p ≠ "") → joinSep sep ps ≠ "" := by
  intro ps
  cases ps with
  | nil => intro h; exact absurd rfl h
  | cons x xs =>
    intro _ hall
    cases xs with
    | nil => exact hall x (by simp)
    | cons y ys =>
      rw [joinSep_cons_cons]
      exact str_append_ne_empty _ _
        (str_append_ne_empty x sep (hall x (by simp)))

theorem exprJoin_cons (e p : String) (ps : List String) :
    exprJoin e (p :: ps)
      = exprJoin (e ++ (if e ≠ "" then " + " else "") ++ p) ps := rfl

theorem exprJoin_ne (ps : List String) : ∀ (e : String), e ≠ "" →
    exprJoin e ps = e ++ String.join (ps.map (fun p => " + " ++ p)) := by
  induction ps with
  | nil =>
    intro e _
    show e = e ++ String.join []
    exact (str_append_empty e).symm
  | cons p ps ih =>
    intro e he
    rw [exprJoin_cons, if_pos he,
      ih _ (str_append_ne_empty _ p (str_append_ne_empty e " + " he)),
      List.map_cons, str_join_cons]
    simp only [str_append_assoc]

theorem exprJoin_empty : ∀ (ps : List String), (∀ p ∈ ps, p ≠ "") →
    exprJoin "" ps = joinSep " + " ps := by
  intro ps hps
  cases ps with
  | nil => rfl
  | cons p ps' =>
    rw [exprJoin_cons, if_neg (by simp), str_append_empty, str_empty_append,
      exprJoin_ne ps' p (hps p (by simp)), joinSep_head_join]

/-- Characterization of the `GetOutputSizesAndNumOutputsExpr` loop. -/
theorem outFold_char (ctx : GenCtx) : ∀ (l : List ArgDef)
    (sz : List String) (ex : String) (nf : Nat),
    l.foldl (outStep ctx) (sz, ex, nf)
      = (sz ++ l.map (fun a => (outputSizeExpr ctx a).getD ""),
         exprJoin ex (l.filterMap (outputSizeExpr ctx)),
         nf + (l.filter (fun a => outputSizeExpr ctx a = none)).length) := by
  intro l
  induction l with
  | nil => intro sz ex nf; simp [exprJoin]
  | cons a l' ih =>
    intro sz ex nf
    rw [List.foldl_cons]
    by_cases h1 : a.number_attr ≠ ""
    · have hsz : outputSizeExpr ctx a
          = some (mapGetD ctx.attr_expressions a.number_attr "") := by
        simp [outputSizeExpr, h1]
      have hstep : outStep ctx (sz, ex, nf) a
          = (sz ++ [mapGetD ctx.attr_expressions a.number_attr ""],
             ex ++ (if ex ≠ "" then " + " else "") ++
               mapGetD ctx.attr_expressions a.number_attr "", nf) := by
        simp [outStep, h1]
      rw [hstep, ih]
      simp [hsz, exprJoin_cons]
    · by_cases h2 : a.type_list_attr ≠ ""
      · have hsz : outputSizeExpr ctx a
            = some (match ctx.inferred_attrs.find? (fun p => p.1 = a.type_list_attr) with
              | some p => "len(" ++ p.2 ++ ")"
              | none => "len(" ++
                  mapGetD ctx.attr_expressions a.type_list_attr "" ++ ")") := by
          simp [outputSizeExpr, h1, h2]
        have hstep : outStep ctx (sz, ex, nf) a
            = (sz ++ [(match ctx.inferred_attrs.find? (fun p => p.1 = a.type_list_attr) with
                | some p => "len(" ++ p.2 ++ ")"
                | none => "len(" ++
                    mapGetD ctx.attr_expressions a.type_list_attr "" ++ ")")],
               ex ++ (if ex ≠ "" then " + " else "") ++
                 (match ctx.inferred_attrs.find? (fun p => p.1 = a.type_list_attr) with
                  | some p => "len(" ++ p.2 ++ ")"
                  | none => "len(" ++
                      mapGetD ctx.attr_expressions a.type_list_attr "" ++ ")"),
               nf) := by
          simp [outStep, h1, h2]
        rw [hstep, ih]
        simp [hsz, exprJoin_cons]
      · have hsz : outputSizeExpr ctx a = none := by
          simp [outputSizeExpr, h1, h2]
        have hstep : outStep ctx (sz, ex, nf) a = (sz ++ [""], ex, nf + 1) := by
          simp [outStep, h1, h2]
        rw [hstep, ih]
        simp [hsz]
        omega

theorem toDigitsCore_ne_nil (b : Nat) : ∀ (fuel n : Nat) (ds : List Char),
    ds ≠ [] → Nat.toDigitsCore b fuel n ds ≠ [] := by
  intro fuel
  induction fuel with
  | zero => intro n ds h; exact h
  | succ f ih =>
    intro n ds h
    simp only [Nat.toDigitsCore]
    by_cases hz : n / b = 0
    · rw [if_pos hz]; simp
    · rw [if_neg hz]; exact ih _ _ (by simp)

theorem nat_toString_ne_empty (n : Nat) : toString n ≠ "" := by
  show Nat.repr n ≠ ""
  unfold Nat.repr Nat.toDigits
  intro h
  have hlist : Nat.toDigitsCore 10 (n + 1) n [] ≠ [] := by
    simp only [Nat.toDigitsCore]
    by_cases hz : n / 10 = 0
    · rw [if_pos hz]; simp
    · rw [if_neg hz]; exact toDigitsCore_ne_nil 10 n _ _ (by simp)
  apply hlist
  have hd := congrArg String.data h
  simpa [List.asString] using hd

/-- Claim C7 (output-count expression): the per-output length
expressions are the resolved `number_attr` expression or the length of
the inferred/explicit `type_list_attr` value, empty for scalar outputs;
and the combined count expression is the ` + `-joined sum of the
list-output expressions followed by the literal count of the purely
scalar outputs (omitted when zero), with the literal `0` for an
operation with no outputs (indeed whenever no term exists). -/
theorem c7_output_count_expression :
    (∀ (ctx : GenCtx),
      (getOutputSizesAndNumOutputsExpr ctx).1
        = ctx.op.output_arg.map (fun a => (outputSizeExpr ctx a).getD ""))
  ∧ (∀ (ctx : GenCtx), (∀ p ∈ outputPieces ctx, p ≠ "") →
      (getOutputSizesAndNumOutputsExpr ctx).2
        = if outputPieces ctx = [] ∧ scalarOutputsCount ctx = 0 then "0"
          else joinSep " + " (outputPieces ctx ++
            (if 0 < scalarOutputsCount ctx then
              [toString (scalarOutputsCount ctx)] else []))) := by
  have hfold : ∀ (ctx : GenCtx),
      (List.range (numOuts ctx)).foldl
        (fun s i => outStep ctx s (listGetD ctx.op.output_arg i {}))
        ([], "", 0)
      = (ctx.op.output_arg.map (fun a => (outputSizeExpr ctx a).getD ""),
         exprJoin "" (outputPieces ctx),
         scalarOutputsCount ctx) := by
    intro ctx
    show (List.range ctx.op.output_arg.length).foldl
        (fun s i => outStep ctx s (listGetD ctx.op.output_arg i {}))
        ([], "", 0) = _
    rw [foldl_range_listGetD ctx.op.output_arg {} (outStep ctx),
      outFold_char ctx ctx.op.output_arg [] "" 0]
    simp [outputPieces, scalarOutputsCount]
  constructor
  · intro ctx
    simp only [getOutputSizesAndNumOutputsExpr, hfold]
  · intro ctx hne
    simp only [getOutputSizesAndNumOutputsExpr, hfold]
    by_cases hp : outputPieces ctx = []
    · by_cases hc : scalarOutputsCount ctx = 0
      · simp [hp, hc, exprJoin]
      · have h0 : 0 < scalarOutputsCount ctx := Nat.pos_of_ne_zero hc
        simp only [hp, exprJoin, List.foldl_nil]
        rw [if_pos h0]
        have hin : ("" ++ (if ("" : String) ≠ "" then " + " else "") ++
            toString (scalarOutputsCount ctx))
            = toString (scalarOutputsCount ctx) := by
          rw [if_neg (by simp), str_empty_append, str_empty_append]
        rw [hin, if_neg (nat_toString_ne_empty _), if_neg (by simp [hc]),
          if_pos h0]
        rfl
    · have hjoin : exprJoin "" (outputPieces ctx)
          = joinSep " + " (outputPieces ctx) :=
        exprJoin_empty _ hne
      have hjne : joinSep " + " (outputPieces ctx) ≠ "" :=
        joinSep_ne_empty " + " _ hp hne
      by_cases hc : 0 < scalarOutputsCount ctx
      · simp only [hjoin]
        rw [if_pos hc, if_pos hjne,
          if_neg (str_append_ne_empty _ _ (str_append_ne_empty _ _ hjne)),
          if_neg (by simp [hp]), if_pos hc,
          joinSep_append_singleton " + " _ _ hp]
      · simp only [hjoin]
        rw [if_neg hc, if_neg hjne, if_neg (by simp [hp]), if_neg hc,
          List.append_nil]

/-- Witness for `c7_output_count_expression` at the mixed-output
operation: one count-attribute output between two scalar outputs. -/
theorem c7_output_count_expression_witness :
    (∀ p ∈ outputPieces mixedOutCtx, p ≠ "")
  ∧ (getOutputSizesAndNumOutputsExpr mixedOutCtx).2
      = if outputPieces mixedOutCtx = [] ∧ scalarOutputsCount mixedOutCtx = 0
        then "0"
        else joinSep " + " (outputPieces mixedOutCtx ++
          (if 0 < scalarOutputsCount mixedOutCtx then
            [toString (scalarOutputsCount mixedOutCtx)] else [])) :=
  ⟨by decide, c7_output_count_expression.2 mixedOutCtx (by decide)⟩

/-! ### C9: line width and word wrapping -/

/-- Monotonicity of the line scanner in the running state. -/
theorem maxLineLenData_mono : ∀ (l : List Char) (cur m cur' m' : Nat),
    cur ≤ cur' → m ≤ m' →
    maxLineLenData l cur m ≤ maxLineLenData l cur' m' := by
  intro l
  induction l with
  | nil =>
    intro cur m cur' m' h1 h2
    exact max_le_max h2 h1
  | cons c rest ih =>
    intro cur m cur' m' h1 h2
    simp only [maxLineLenData]
    by_cases hc : c = '\n'
    · rw [if_pos hc, if_pos hc]
      exact ih 0 _ 0 _ (le_refl 0) (max_le_max h2 h1)
    · rw [if_neg hc, if_neg hc]
      exact ih _ _ _ _ (by omega) h2

/-- The scanner's result dominates its running state. -/
theorem maxLineLenData_ge_state : ∀ (l : List Char) (cur m : Nat),
    max m cur ≤ maxLineLenData l cur m := by
  intro l
  induction l with
  | nil => intro cur m; exact le_refl _
  | cons c rest ih =>
    intro cur m
    simp only [maxLineLenData]
    by_cases hc : c = '\n'
    · rw [if_pos hc]
      calc max m cur ≤ max (max m cur) 0 := by omega
        _ ≤ _ := ih 0 (max m cur)
    · rw [if_neg hc]
      calc max m cur ≤ max m (cur + 1) := by omega
        _ ≤ _ := ih (cur + 1) m

/-- A suffix's maximal line is dominated by the whole scan. -/
theorem maxLineLenData_append_right : ∀ (x y : List Char) (cur m : Nat),
    maxLineLenData y 0 0 ≤ maxLineLenData (x ++ y) cur m := by
  intro x
  induction x with
  | nil =>
    intro y cur m
    exact maxLineLenData_mono y 0 0 cur m (by omega) (by omega)
  | cons c rest ih =>
    intro y cur m
    simp only [List.cons_append, maxLineLenData]
    by_cases hc : c = '\n'
    · rw [if_pos hc]; exact ih y 0 _
    · rw [if_neg hc]; exact ih y _ m

/-- A prefix's maximal line is dominated by the whole scan. -/
theorem maxLineLenData_append_left : ∀ (x y : List Char) (cur m : Nat),
    maxLineLenData x cur m ≤ maxLineLenData (x ++ y) cur m := by
  intro x
  induction x with
  | nil =>
    intro y cur m
    exact maxLineLenData_ge_state y cur m
  | cons c rest ih =>
    intro y cur m
    simp only [List.cons_append, maxLineLenData]
    by_cases hc : c = '\n'
    · rw [if_pos hc, if_pos hc]; exact ih y 0 _
    · rw [if_neg hc, if_neg hc]; exact ih y _ m

/-- A piece of an appended text never has a longer maximal line than
the whole. -/
theorem maxLineLen_right_le (a b : String) :
    maxLineLen b ≤ maxLineLen (a ++ b) := by
  unfold maxLineLen
  rw [String.data_append]
  exact maxLineLenData_append_right a.data b.data 0 0

/-- See `maxLineLen_right_le`. -/
theorem maxLineLen_left_le (a b : String) :
    maxLineLen a ≤ maxLineLen (a ++ b) := by
  unfold maxLineLen
  rw [String.data_append]
  exact maxLineLenData_append_left a.data b.data 0 0

/-- Decomposition of `AddEagerFastPathAndGraphCode` when the setup
succeeds. -/
theorem fastgraph_ok (ctx : GenCtx) (p : String) (sizes : List String)
    (err : String) (annots : List (String × String)) (st : String)
    (hset : getEagerFunctionSetup ctx "  " = (true, st)) :
    addEagerFastPathAndGraphCode ctx p sizes err annots
      = (true,
         (if ctx.add_type_annotations then generateTypeVars ctx annots
          else "") ++
         (if ctx.api.visibility = Visibility.VISIBLE then
           "@_dispatch.add_fallback_dispatch_list\n" ++
           "@_dispatch.add_type_based_api_dispatcher\n"
          else "") ++
         addExport ctx ++
         (if ctx.add_type_annotations then
           addReturnTypeAnnot ctx annots (addDefLine ctx.function_name p)
          else addDefLine ctx.function_name p) ++
         "  \"\"\"\n" ++
         ("  _ctx = _context._context or _context.context()\n" ++
          "  tld = _ctx._thread_local_data\n" ++ "  if tld.is_eager:" ++ "\n") ++
         (if err = "" then addEagerFastPathExecute ctx else "    " ++ err) ++
         handleGraphMode ctx st sizes ++
         addRawOpExport ctx ++ addTypeBasedDispatcherAlias ctx ++ "\n\n",
         addOutputGlobals ctx) := by
  simp only [addEagerFastPathAndGraphCode, hset]

/-- Decomposition of `AddEagerFallbackCode` when eager execution is
allowed and the setup succeeds. -/
theorem fallback_ok (ctx : GenCtx) (p : String) (sizes : List String)
    (nexpr : String) (annots : List (String × String)) (st : String)
    (hset : getEagerFunctionSetup ctx "  " = (true, st)) :
    addEagerFallbackCode ctx p sizes nexpr "" annots
      = (true,
         (if ctx.add_type_annotations then
           addReturnTypeAnnot ctx annots
             (addDefLine (ctx.function_name ++ kEagerFallbackSuffix)
               (p ++ (if p = "" then "" else ", ") ++ "ctx"))
          else
           addDefLine (ctx.function_name ++ kEagerFallbackSuffix)
             (p ++ (if p = "" then "" else ", ") ++ "ctx")) ++
         st ++
         addEagerInferredAttrs ctx "  " ++
         addEagerInputCasts ctx "  " ++
         ("  _inputs_flat = " ++
           (flattenInputs ctx.op (ctxRenames ctx) none false).1 ++ "\n") ++
         addEagerAttrs ctx "  " ++
         addEagerExecute ctx "  " nexpr ++
         addEagerFunctionTeardown ctx "  " sizes true) := by
  simp only [addEagerFallbackCode, hset]
  rw [if_neg (by simp)]
  simp only [str_append_assoc]

set_option maxRecDepth 20000 in
/-- Counterexample to claim C9 as stated: the generated source unit for
the concrete operation `longOp` — whose list input's name is long —
contains a line of more than 78 columns (the unwrapped
`if not isinstance(...)` validation emitted by `ExpectListArg`). -/
theorem c9_counterexample :
    78 < maxLineLen (getPythonOpsImpl [(longOp, longApi)] [] ["test.cc"] []) := by
  rcases hS : getEagerFunctionSetup (makeCtx longOp longApi "long_validation" false) "  "
    with ⟨ok, st⟩
  have hok : ok = true := by
    have h1 : (getEagerFunctionSetup
        (makeCtx longOp longApi "long_validation" false) "  ").1 = true := by
      decide
    rw [hS] at h1
    exact h1
  subst hok
  have hst : 78 < maxLineLen st := by
    have h1 : 78 < maxLineLen (getEagerFunctionSetup
        (makeCtx longOp longApi "long_validation" false) "  ").2 := by decide
    rw [hS] at h1
    exact h1
  have herr : getEagerNotAllowedError
      (makeCtx longOp longApi "long_validation" false) = "" := by decide
  have h1 : getPythonOpsImpl [(longOp, longApi)] [] ["test.cc"] []
      = getPythonOpsHeader ["test.cc"] ++
        ("" ++ opContribution longOp longApi [] []) := rfl
  have h2 : opContribution longOp longApi [] []
      = code longOp longApi "long_validation" false := by
    have hlow : generateLowerCaseOpName longOp.name = "long_validation" := by
      decide
    have hres : isPythonReserved "long_validation" = false := by decide
    simp only [opContribution, hlow]
    rw [if_neg (by decide : ¬ longApi.visibility = Visibility.SKIP)]
    rw [if_neg (by decide : ¬ (longApi.visibility = Visibility.HIDDEN ∨
      ([] : List String).contains longOp.name = true))]
    rw [if_neg (by simp [hres])]
    rfl
  have h3 : code longOp longApi "long_validation" false
      = addOutputGlobals (makeCtx longOp longApi "long_validation" false) ++
        (addEagerFastPathAndGraphCode
          (makeCtx longOp longApi "long_validation" false)
          (buildParameters (makeCtx longOp longApi "long_validation" false) []).2
          (getOutputSizesAndNumOutputsExpr
            (makeCtx longOp longApi "long_validation" false)).1
          ""
          []).2.1 ++
        (addEagerFallbackCode
          (makeCtx longOp longApi "long_validation" false)
          (buildParameters (makeCtx longOp longApi "long_validation" false) []).1
          (getOutputSizesAndNumOutputsExpr
            (makeCtx longOp longApi "long_validation" false)).1
          (getOutputSizesAndNumOutputsExpr
            (makeCtx longOp longApi "long_validation" false)).2
          ""
          []).2 := by
    simp only [code, herr,
      fastgraph_ok _ _ _ "" [] st hS, fallback_ok _ _ _ _ [] st hS]
    rw [if_neg (by decide : ¬ longApi.visibility = Visibility.SKIP)]
    simp [fastgraph_ok _ _ _ "" [] st hS, fallback_ok _ _ _ _ [] st hS]
  rw [h1, h2, h3, fallback_ok _ _ _ _ [] st hS]
  refine lt_of_lt_of_le hst ?_
  refine le_trans ?_ (maxLineLen_right_le _ _)
  refine le_trans ?_ (maxLineLen_right_le _ _)
  refine le_trans ?_ (maxLineLen_right_le _ _)
  refine le_trans ?_ (maxLineLen_left_le _ _)
  refine le_trans ?_ (maxLineLen_left_le _ _)
  refine le_trans ?_ (maxLineLen_left_le _ _)
  refine le_trans ?_ (maxLineLen_left_le _ _)
  refine le_trans ?_ (maxLineLen_left_le _ _)
  refine le_trans ?_ (maxLineLen_left_le _ _)
  exact maxLineLen_right_le _ st

/-- The split pieces are never empty as a list. -/
theorem splitArgsData_ne_nil : ∀ (l : List Char) (inQ : Bool) (cur : List Char),
    splitArgsData l inQ cur ≠ [] := by
  intro l inQ cur
  induction l, inQ, cur using splitArgsData.induct with
  | case1 inQ cur => simp [splitArgsData]
  | case2 rest inQ cur ih => rw [splitArgsData.eq_2]; exact ih
  | case3 rest cur ih => rw [splitArgsData.eq_3]; simp
  | case4 c rest inQ cur hc hsplit ih =>
    rw [splitArgsData.eq_4 _ _ _ _ hc hsplit]
    exact ih

/-- Joining the split pieces with `, ` restores the input exactly:
breaks are inserted only at the separators. -/
theorem splitArgsData_join : ∀ (l : List Char) (inQ : Bool) (cur : List Char),
    joinArgsData (splitArgsData l inQ cur) = cur.reverse ++ l := by
  intro l inQ cur
  induction l, inQ, cur using splitArgsData.induct with
  | case1 inQ cur => simp [splitArgsData, joinArgsData]
  | case2 rest inQ cur ih =>
    rw [splitArgsData.eq_2, ih]
    simp
  | case3 rest cur ih =>
    rw [splitArgsData.eq_3]
    rcases hsp : splitArgsData rest false [] with _ | ⟨h, t'⟩
    · exact absurd hsp (splitArgsData_ne_nil rest false [])
    · rw [hsp] at ih
      show joinArgsData (cur.reverse :: h :: t') = _
      simp only [joinArgsData]
      rw [ih]
      simp
  | case4 c rest inQ cur hc hsplit ih =>
    rw [splitArgsData.eq_4 _ _ _ _ hc hsplit, ih]
    simp

/-- Each split piece has balanced quotes when the whole input does: no
break falls inside a string literal. -/
theorem splitArgsData_quote_parity :
    ∀ (l : List Char) (inQ : Bool) (cur : List Char),
    (cur.count '"' % 2 = if inQ then 1 else 0) →
    ((cur.count '"' + l.count '"') % 2 = 0) →
    ∀ t ∈ splitArgsData l inQ cur, t.count '"' % 2 = 0 := by
  intro l inQ cur
  induction l, inQ, cur using splitArgsData.induct with
  | case1 inQ cur =>
    intro _ h2 t ht
    rw [splitArgsData.eq_1] at ht
    simp only [List.mem_singleton] at ht
    subst ht
    rw [List.count_reverse]
    simp only [List.count_nil] at h2
    omega
  | case2 rest inQ cur ih =>
    intro h1 h2 t ht
    rw [splitArgsData.eq_2] at ht
    refine ih ?_ ?_ t ht
    · rw [List.count_cons_self]
      cases inQ with
      | true =>
        have e1 : (if (true = true) then 1 else 0) = 1 := rfl
        have e2 : (if ((!true) = true) then 1 else 0) = 0 := rfl
        rw [e1] at h1
        rw [e2]
        omega
      | false =>
        have e1 : (if (false = true) then 1 else 0) = 0 := rfl
        have e2 : (if ((!false) = true) then 1 else 0) = 1 := rfl
        rw [e1] at h1
        rw [e2]
        omega
    · rw [List.count_cons_self] at h2 ⊢
      omega
  | case3 rest cur ih =>
    intro h1 h2 t ht
    rw [splitArgsData.eq_3] at ht
    have hcomma : (',' : Char) ≠ '"' := by decide
    have hspace : (' ' : Char) ≠ '"' := by decide
    rw [List.count_cons_of_ne hcomma.symm, List.count_cons_of_ne hspace.symm] at h2
    simp only [List.mem_cons] at ht
    rcases ht with ht | ht
    · subst ht
      rw [List.count_reverse]
      simpa using h1
    · refine ih ?_ ?_ t ht
      · simp
      · simp only [List.count_nil]
        have e1 : (if (false = true) then 1 else 0) = 0 := rfl
        rw [e1] at h1
        omega
  | case4 c rest inQ cur hc hsplit ih =>
    intro h1 h2 t ht
    rw [splitArgsData.eq_4 _ _ _ _ hc hsplit] at ht
    have hne : ('"' : Char) ≠ c := fun h => hc h.symm
    refine ih ?_ ?_ t ht
    · rw [List.count_cons_of_ne hne]
      exact h1
    · rw [List.count_cons_of_ne hne]
      rw [List.count_cons_of_ne hne] at h2
      exact h2

/-- Lines produced by the (modelled) greedy packing are bounded by the
margin whenever every piece fits. -/
theorem packLines_bounded (indent : String) (margin : Nat) :
    ∀ (ts : List String) (line : String),
    line.length + 1 ≤ margin →
    (∀ t ∈ ts, indent.length + t.length + 1 ≤ margin) →
    ∀ x ∈ packLines indent margin ts line, x.length ≤ margin := by
  intro ts
  induction ts with
  | nil =>
    intro line hl _ x hx
    simp only [packLines, List.mem_singleton] at hx
    subst hx
    omega
  | cons t rest ih =>
    intro line hl hts x hx
    simp only [packLines] at hx
    by_cases hfit : line.length + 2 + t.length + 1 ≤ margin
    · rw [if_pos hfit] at hx
      refine ih _ ?_ (fun u hu => hts u (by simp [hu])) x hx
      rw [String.length_append, String.length_append]
      have h2 : (", " : String).length = 2 := by decide
      omega
    · rw [if_neg hfit] at hx
      simp only [List.mem_cons] at hx
      rcases hx with hx | hx
      · subst hx
        rw [String.length_append]
        have h1 : ("," : String).length = 1 := by decide
        omega
      · refine ih _ ?_ (fun u hu => hts u (by simp [hu])) x hx
        have := hts t (by simp)
        rw [String.length_append]
        omega

/-- Claim C9 (amended): the fixed margin is 78 (`kRightMargin`), and
the word-wrap helper respects it: whenever every comma-separated piece
of the wrapped body fits within the margin beside the prefix-wide
continuation indentation, every produced line is at most `margin`
columns; the helper splits the body only at `, ` separators outside
string literals — joining the pieces back restores the body exactly,
and when the body's quotes are balanced every piece has balanced
quotes, so no break falls inside a literal.  Emission sites that do
not pass through the helper (such as `ExpectListArg`) are not wrapped
and can exceed the margin (see the counterexample). -/
theorem c9_margin_and_word_wrap :
    kRightMargin = 78
  ∧ (∀ (pfx body : String) (margin : Nat),
      pfx.length + 1 ≤ margin →
      (∀ t ∈ splitArgs body, pfx.length + t.length + 1 ≤ margin) →
      ∀ line ∈ wordWrapLines pfx body margin, line.length ≤ margin)
  ∧ (∀ (body : String),
      joinArgsData ((splitArgs body).map String.data) = body.data)
  ∧ (∀ (body : String), body.data.count '"' % 2 = 0 →
      ∀ t ∈ splitArgs body, t.data.count '"' % 2 = 0) := by
  have hdata : ∀ (body : String),
      (splitArgs body).map String.data = splitArgsData body.data false [] := by
    intro body
    unfold splitArgs
    rw [List.map_map]
    have : (String.data ∘ fun l => (⟨l⟩ : String)) = id := by
      funext l
      rfl
    rw [this, List.map_id]
  refine ⟨rfl, ?_, ?_, ?_⟩
  · intro pfx body margin hp hfit line hline
    have hind : (⟨List.replicate pfx.length ' '⟩ : String).length
        = pfx.length := by
      show (List.replicate pfx.length ' ').length = pfx.length
      rw [List.length_replicate]
    unfold wordWrapLines at hline
    rcases hsp : splitArgs body with _ | ⟨t, ts⟩
    · rw [hsp] at hline
      simp only [List.mem_singleton] at hline
      subst hline
      omega
    · rw [hsp] at hline
      refine packLines_bounded _ margin ts (pfx ++ t) ?_ ?_ line hline
      · have := hfit t (by rw [hsp]; simp)
        rw [String.length_append]
        omega
      · intro u hu
        have := hfit u (by rw [hsp]; simp [hu])
        rw [hind]
        omega
  · intro body
    rw [hdata, splitArgsData_join]
    rfl
  · intro body hbal t ht
    have hmem : t.data ∈ (splitArgs body).map String.data :=
      List.mem_map_of_mem String.data ht
    rw [hdata] at hmem
    exact splitArgsData_quote_parity body.data false [] (by simp)
      (by simpa using hbal) t.data hmem

/-- Witness for `c9_margin_and_word_wrap`: a body with a quoted,
comma-holding literal wraps without exceeding the margin or splitting
the literal. -/
theorem c9_margin_and_word_wrap_witness :
    (("        " : String).length + 1 ≤ 78)
  ∧ (∀ t ∈ splitArgs "_ctx, \"Name\", name, \"a, b\"",
      ("        " : String).length + t.length + 1 ≤ 78)
  ∧ (∀ line ∈ wordWrapLines "        " "_ctx, \"Name\", name, \"a, b\"" 78,
      line.length ≤ 78)
  ∧ (("_ctx, \"Name\", name, \"a, b\"" : String).data.count '"' % 2 = 0)
  ∧ (∀ t ∈ splitArgs "_ctx, \"Name\", name, \"a, b\"",
      t.data.count '"' % 2 = 0) :=
  ⟨by decide, by decide,
   c9_margin_and_word_wrap.2.1 "        " "_ctx, \"Name\", name, \"a, b\"" 78
     (by decide) (by decide),
   by decide,
   c9_margin_and_word_wrap.2.2.2 "_ctx, \"Name\", name, \"a, b\"" (by decide)⟩

end PyOpGen
